import Mathlib

/-!
Shallow embedding of the VitalBalance repository (a browser health-tracking
app) for checking its specification claims.

Scope of the embedding:
* `src/services/geminiService.ts` — the AI analysis gateway: `cleanJson`,
  `analyzeFoodImage`, `analyzeFoodText`, `generateJuiceRecipe`.  The gateway's
  network call is modelled as an `Except Unit (Option String)` input (the
  endpoint either throws, or yields `response.text`, which may be absent).
  `JSON.parse` / `JSON.stringify` are modelled by an executable JSON parser
  and renderer over an inductive `Json` value type.  JSON numbers are
  modelled as integers (the app's macro fields; floating point is outside the
  shallow embedding), and string escaping covers the quote and backslash
  (the characters `JSON.stringify` escapes in ordinary text).
* the `App` component (state collections, `addFoodLog` / `addRecipe` /
  `removeRecipe` / `addVitalLog`, and the localStorage load/persist effects).
* the camera capture flow of the `FoodLens` component.  The repository holds
  two variants of this component; the specification (§9) designates the more
  defensive one (camera fallback, readiness check, unmount cleanup) as
  authoritative, and that variant is the one embedded here.
-/

namespace VB

/-! ## Character and list utilities (JS string-method models) -/

/-- Whitespace test used for `\s` in the regexes, `String.prototype.trim`, and
JSON inter-token whitespace (space, tab, newline, carriage return). -/
def isWsChar (c : Char) : Bool := c = ' ' || c = '\t' || c = '\n' || c = '\r'

/-- Decimal digit test. -/
def isDig (c : Char) : Bool := '0' ≤ c && c ≤ '9'

/-- Drop leading whitespace. -/
def skipWs (cs : List Char) : List Char := cs.dropWhile isWsChar

/-- Remove the exact prefix `tok` from `cs`, or fail. -/
def chopPfx : List Char → List Char → Option (List Char)
  | [], cs => some cs
  | _ :: _, [] => none
  | t :: ts, c :: cs => if c = t then chopPfx ts cs else none

/-- Does `tok` occur as a contiguous run anywhere in `cs`? -/
def hasTok (tok : List Char) : List Char → Bool
  | [] => (chopPfx tok []).isSome
  | c :: cs => (chopPfx tok (c :: cs)).isSome || hasTok tok cs

/-- Fuelled worker for `stripTok`: at each position, a match of `tok` is
removed together with the maximal whitespace run after it (the `\s*` of the
source regexes), and scanning resumes past the removed text, as JS global
`replace` does. -/
def stripTokF (tok : List Char) : Nat → List Char → List Char
  | 0, cs => cs
  | _ + 1, [] => []
  | fuel + 1, c :: cs =>
    match chopPfx tok (c :: cs) with
    | some rest => stripTokF tok fuel (skipWs rest)
    | none => c :: stripTokF tok fuel cs

/-- Model of `text.replace(/TOK\s*‌/g, "")` for a literal token `TOK`. -/
def stripTok (tok : List Char) (cs : List Char) : List Char :=
  stripTokF tok cs.length cs

/-- Model of `String.prototype.indexOf` for a single character (as an
`Option` instead of `-1`). -/
def idxOfChar (c : Char) : List Char → Option Nat
  | [] => none
  | x :: xs => if x = c then some 0 else (idxOfChar c xs).map (· + 1)

/-- Model of `String.prototype.lastIndexOf` for a single character. -/
def lastIdxOfChar (c : Char) (cs : List Char) : Option Nat :=
  (idxOfChar c cs.reverse).map (fun k => cs.length - 1 - k)

/-- Model of `String.prototype.substring i j` (character slice `[i, j)`). -/
def subSpan (i j : Nat) (cs : List Char) : List Char := (cs.take j).drop i

/-- Trim trailing whitespace. -/
def trimEnd (cs : List Char) : List Char := (cs.reverse.dropWhile isWsChar).reverse

/-- Model of `String.prototype.trim`. -/
def trimL (cs : List Char) : List Char := trimEnd (cs.dropWhile isWsChar)

/-! ## JSON values

`Json` is the value domain of the modelled `JSON.parse` / `JSON.stringify`.
Numbers are integers (see the header note); an object is its member list in
source order, duplicate keys allowed, with lookup taking the last binding as
JavaScript property semantics does after `JSON.parse`. -/

inductive Json where
  | null : Json
  | bool : Bool → Json
  | num : Int → Json
  | str : String → Json
  | arr : List Json → Json
  | obj : List (String × Json) → Json

/-! ## Rendering (the `JSON.stringify` model) -/

/-- The decimal digit character for `k < 10`. -/
def digitOf (k : Nat) : Char := Char.ofNat (48 + k)

/-- Fuelled decimal rendering of a natural number (most significant digit
first); `fuel ≥ n` always suffices. -/
def natDigsF : Nat → Nat → List Char
  | 0, n => [digitOf (n % 10)]
  | fuel + 1, n => if n < 10 then [digitOf n] else natDigsF fuel (n / 10) ++ [digitOf (n % 10)]

/-- Decimal digit list of a natural number. -/
def natDigs (n : Nat) : List Char := natDigsF n n

/-- Decimal rendering of an integer (the JSON numeral `JSON.stringify`
emits for an integral number). -/
def intChars (i : Int) : List Char :=
  if i < 0 then '-' :: natDigs i.natAbs else natDigs i.natAbs

/-- String-body escaping of one character, as `JSON.stringify` escapes
ordinary text: the quote and the backslash get a backslash. -/
def escChar (c : Char) : List Char :=
  if c = '"' then ['\\', '"'] else if c = '\\' then ['\\', '\\'] else [c]

/-- Escape a whole string body. -/
def escapeChars (cs : List Char) : List Char := cs.flatMap escChar

/-- Rendered (quoted, escaped) JSON string literal. -/
def renderStrL (s : String) : List Char := '"' :: (escapeChars s.data ++ ['"'])

mutual

/-- Characters of the `JSON.stringify` output for a value (no inserted
whitespace, as the source calls it with no spacing argument). -/
def renderJ : Json → List Char
  | .num i => intChars i
  | .str s => renderStrL s
  | .null => "null".data
  | .bool b => if b then "true".data else "false".data
  | .arr l => '[' :: (renderElems l ++ [']'])
  | .obj m => '{' :: (renderMembers m ++ ['}'])

/-- Comma-separated rendering of array elements. -/
def renderElems : List Json → List Char
  | [] => []
  | [v] => renderJ v
  | v :: w :: l => renderJ v ++ ',' :: renderElems (w :: l)

/-- Comma-separated rendering of object members. -/
def renderMembers : List (String × Json) → List Char
  | [] => []
  | [(k, v)] => renderStrL k ++ ':' :: renderJ v
  | (k, v) :: p :: m => renderStrL k ++ ':' :: renderJ v ++ ',' :: renderMembers (p :: m)

end

/-- The `JSON.stringify` model on strings. -/
def renderJson (j : Json) : String := String.mk (renderJ j)

/-! ## Parsing (the `JSON.parse` model) -/

/-- Unescape one escape character of a string body (the subset covering what
the renderer emits plus the common singles). -/
def unescChar (c : Char) : Option Char :=
  if c = 'n' then some '\n'
  else if c = 't' then some '\t'
  else if c = 'r' then some '\r'
  else if c = '"' ∨ c = '\\' ∨ c = '/' then some c
  else none

/-- Parse a string body after the opening quote, up to the closing quote. -/
def parseStrBody : List Char → Option (List Char × List Char)
  | [] => none
  | c :: cs =>
    if c = '"' then some ([], cs)
    else if c = '\\' then
      match cs with
      | [] => none
      | e :: cs' =>
        match unescChar e with
        | some d => (parseStrBody cs').map (fun p => (d :: p.1, p.2))
        | none => none
    else (parseStrBody cs).map (fun p => (c :: p.1, p.2))

/-- Split off the maximal leading run of decimal digits. -/
def takeDigs : List Char → List Char × List Char
  | [] => ([], [])
  | c :: cs => if isDig c then ((takeDigs cs).1.cons c, (takeDigs cs).2) else ([], c :: cs)

/-- Value of a digit list, most significant first. -/
def digsVal (ds : List Char) : Nat := ds.foldl (fun a c => 10 * a + (c.toNat - 48)) 0

/-- Parse a nonempty digit run into its value. -/
def parseDigs (cs : List Char) : Option (Nat × List Char) :=
  if (takeDigs cs).1.isEmpty then none else some (digsVal (takeDigs cs).1, (takeDigs cs).2)

/-- Parse a JSON integer numeral, with optional leading minus sign. -/
def parseNum (cs : List Char) : Option (Json × List Char) :=
  match cs with
  | [] => none
  | c :: r =>
    if c = '-' then (parseDigs r).map (fun p => (Json.num (-(p.1 : Int)), p.2))
    else (parseDigs (c :: r)).map (fun p => (Json.num (p.1 : Int), p.2))

mutual

/-- Fuelled parser for one JSON value (leading whitespace allowed), returning
the value and the unconsumed suffix. -/
def parseVal : Nat → List Char → Option (Json × List Char)
  | 0, _ => none
  | fuel + 1, cs =>
    match skipWs cs with
    | [] => none
    | c :: r =>
      if c = 'n' then
        match chopPfx ['u', 'l', 'l'] r with
        | some r' => some (.null, r')
        | none => none
      else if c = 't' then
        match chopPfx ['r', 'u', 'e'] r with
        | some r' => some (.bool true, r')
        | none => none
      else if c = 'f' then
        match chopPfx ['a', 'l', 's', 'e'] r with
        | some r' => some (.bool false, r')
        | none => none
      else if c = '"' then
        match parseStrBody r with
        | some p => some (.str (String.mk p.1), p.2)
        | none => none
      else if c = '[' then
        match skipWs r with
        | [] => none
        | d :: r' =>
          if d = ']' then some (.arr [], r')
          else
            match parseElems fuel (d :: r') with
            | some p => some (.arr p.1, p.2)
            | none => none
      else if c = '{' then
        match skipWs r with
        | [] => none
        | d :: r' =>
          if d = '}' then some (.obj [], r')
          else
            match parseMembers fuel (d :: r') with
            | some p => some (.obj p.1, p.2)
            | none => none
      else if c = '-' || isDig c then parseNum (c :: r)
      else none

/-- Fuelled parser for one or more comma-separated array elements, consuming
the closing bracket. -/
def parseElems : Nat → List Char → Option (List Json × List Char)
  | 0, _ => none
  | fuel + 1, cs =>
    match parseVal fuel cs with
    | none => none
    | some (v, r) =>
      match skipWs r with
      | [] => none
      | d :: r' =>
        if d = ',' then
          match parseElems fuel (skipWs r') with
          | some p => some (v :: p.1, p.2)
          | none => none
        else if d = ']' then some ([v], r')
        else none

/-- Fuelled parser for one or more comma-separated object members, consuming
the closing brace. -/
def parseMembers : Nat → List Char → Option (List (String × Json) × List Char)
  | 0, _ => none
  | fuel + 1, cs =>
    match skipWs cs with
    | [] => none
    | c :: r =>
      if c = '"' then
        match parseStrBody r with
        | none => none
        | some (kl, r1) =>
          match skipWs r1 with
          | [] => none
          | d :: r2 =>
            if d = ':' then
              match parseVal fuel (skipWs r2) with
              | none => none
              | some (v, r3) =>
                match skipWs r3 with
                | [] => none
                | e :: r4 =>
                  if e = ',' then
                    match parseMembers fuel (skipWs r4) with
                    | some p => some ((String.mk kl, v) :: p.1, p.2)
                    | none => none
                  else if e = '}' then some ([(String.mk kl, v)], r4)
                  else none
            else none
      else none

end

/-- Whole-document JSON parse on characters: one value, then only trailing
whitespace.  `none` models the exception `JSON.parse` throws. -/
def parseJsonL (cs : List Char) : Option Json :=
  match parseVal (cs.length + 1) cs with
  | some (j, r) => if skipWs r = [] then some j else none
  | none => none

/-- The `JSON.parse` model on strings. -/
def parseJson (s : String) : Option Json := parseJsonL s.data

/-- True when the suffix does not start with a digit: the condition under
which a rendered numeral glued to the suffix still parses to itself. -/
def digDelim (cs : List Char) : Bool :=
  match cs with
  | [] => true
  | c :: _ => !isDig c

/-! ## The AI analysis gateway (`src/services/geminiService.ts`)

The authoritative service module (the one the components import).  A call to
the generative endpoint is summarised by its observable outcome: `.error ()`
when `generateContent` (or anything before the parse) throws, `.ok t` with
`t : Option String` for `response.text`, which the source reads as
`response.text || ""`. -/

/-- The ```` ``` ```` fence marker. -/
def fenceTok : List Char := ['`', '`', '`']

/-- The ```` ```json ```` fence marker. -/
def fenceJsonTok : List Char := ['`', '`', '`', 'j', 's', 'o', 'n']

/-- Character-level body of `cleanJson`: strip ```` ```json ```` and then
```` ``` ```` fence markers (each with trailing whitespace, globally), then
cut to the span from the first `\x7b` to the last `\x7d` when that span is
nonempty, and trim. -/
def cleanJsonL (cs : List Char) : List Char :=
  if cs = [] then []
  else
    let c2 := stripTok fenceTok (stripTok fenceJsonTok cs)
    match idxOfChar '{' c2, lastIdxOfChar '}' c2 with
    | some i, some k => if i < k then trimL (subSpan i (k + 1) c2) else trimL c2
    | _, _ => trimL c2

/-- Model of the source's `cleanJson` helper (markdown-fence stripping plus
outermost-brace extraction; `!text` is the empty string). -/
def cleanJson (text : String) : String := String.mk (cleanJsonL text.data)

/-- Failure modes of a gateway operation, as the thrown values are
distinguishable in the source: the endpoint error rethrown, the explicit
`Empty response from AI`, the `JSON.parse` exception, and the `TypeError` a
property access on `null` raises. -/
inductive GemErr where
  | endpoint : GemErr
  | emptyResponse : GemErr
  | badJson : GemErr
  | typeErr : GemErr

/-- Last-binding-wins lookup in an object member list: JavaScript property
semantics for the objects `JSON.parse` builds. -/
def objLookup (m : List (String × Json)) (key : String) : Option Json :=
  m.foldl (fun acc kv => if kv.1 = key then some kv.2 else acc) none

/-- JavaScript property read `v.key` on a parsed JSON value: a present field,
`undefined` (`none`) when absent or when `v` is not an object, and a thrown
`TypeError` when `v` is `null`. -/
def jsProp (v : Json) (key : String) : Except GemErr (Option Json) :=
  match v with
  | .obj m => .ok (objLookup m key)
  | .null => .error .typeErr
  | _ => .ok none

/-- The `macros` record the food-analysis functions build, field by field
from the parsed response; a field is `none` when the response lacked it
(JavaScript `undefined`). -/
structure MacrosJs where
  calories : Option Json
  protein : Option Json
  carbs : Option Json
  fat : Option Json
  sugar : Option Json
  sodium : Option Json

/-- The `\x7b name, macros \x7d` result record of `analyzeFoodImage` and
`analyzeFoodText`. -/
structure FoodScan where
  name : Option Json
  macros : MacrosJs

/-- Shared response handling of both food-analysis operations: clean, reject
empty, `JSON.parse`, then build the result record by property reads. -/
def processFoodResponse (respText : Option String) : Except GemErr FoodScan := do
  let text := cleanJson (respText.getD "")
  if text = "" then throw .emptyResponse
  else
    match parseJson text with
    | none => throw .badJson
    | some data => do
      let nm ← jsProp data "name"
      let cal ← jsProp data "calories"
      let pro ← jsProp data "protein"
      let cb ← jsProp data "carbs"
      let ft ← jsProp data "fat"
      let sg ← jsProp data "sugar"
      let sd ← jsProp data "sodium"
      return ⟨nm, ⟨cal, pro, cb, ft, sg, sd⟩⟩

/-- Model of `analyzeFoodImage`: on any throw the source logs and rethrows
the same error, so the error value passes through unchanged. -/
def analyzeFoodImage (resp : Except Unit (Option String)) : Except GemErr FoodScan :=
  match resp with
  | .error _ => .error .endpoint
  | .ok t => processFoodResponse t

/-- Model of `analyzeFoodText`: identical response handling (the two
functions differ only in the request they send). -/
def analyzeFoodText (resp : Except Unit (Option String)) : Except GemErr FoodScan :=
  match resp with
  | .error _ => .error .endpoint
  | .ok t => processFoodResponse t

/-- The recipe record `generateJuiceRecipe` builds: a fresh id from
`Date.now()`, then one property read per schema field, with no validation. -/
structure RecipeJs where
  id : String
  name : Option Json
  description : Option Json
  ingredients : Option Json
  instructions : Option Json
  benefits : Option Json
  macrosEstimate : Option Json

/-- The message of the single error `generateJuiceRecipe` throws. -/
def recipeFailMsg : String := "Failed to parse recipe from AI. Please try again."

/-- Inner (try-block) processing of `generateJuiceRecipe`; `now` stands for
`Date.now().toString()`. -/
def processRecipeResponse (now : String) (respText : Option String) :
    Except GemErr RecipeJs := do
  let text := cleanJson (respText.getD "")
  if text = "" then throw .emptyResponse
  else
    match parseJson text with
    | none => throw .badJson
    | some data => do
      let nm ← jsProp data "name"
      let ds ← jsProp data "description"
      let ing ← jsProp data "ingredients"
      let ins ← jsProp data "instructions"
      let ben ← jsProp data "benefits"
      let mac ← jsProp data "macrosEstimate"
      return ⟨now, nm, ds, ing, ins, ben, mac⟩

/-- Model of `generateJuiceRecipe`: any caught error — endpoint failure,
empty response, parse failure or `TypeError` — is replaced by the one fixed
`recipeFailMsg` error. -/
def generateJuiceRecipe (now : String) (resp : Except Unit (Option String)) :
    Except String RecipeJs :=
  match resp with
  | .error _ => .error recipeFailMsg
  | .ok t =>
    match processRecipeResponse now t with
    | .ok r => .ok r
    | .error _ => .error recipeFailMsg

/-! ## The shared data model (`types.ts`) -/

/-- The top-level view selector. -/
inductive AppView where
  | DASHBOARD : AppView
  | FOOD_LOG : AppView
  | JUICE_BAR : AppView
  | VITALS : AppView
deriving DecidableEq

/-- The `type` field of a food item: `'meal' | 'snack' | 'juice'`. -/
inductive FoodType where
  | meal : FoodType
  | snack : FoodType
  | juice : FoodType
deriving DecidableEq

/-- The six tracked macro-nutrient numbers. -/
structure MacroNutrients where
  calories : Int
  protein : Int
  carbs : Int
  fat : Int
  sugar : Int
  sodium : Int
deriving DecidableEq

/-- A logged food entry (`FoodItem extends MacroNutrients` flattened, as the
TypeScript interface is). -/
structure FoodItem where
  id : String
  name : String
  timestamp : Int
  type : FoodType
  image : Option String
  calories : Int
  protein : Int
  carbs : Int
  fat : Int
  sugar : Int
  sodium : Int
deriving DecidableEq

/-- A recorded vital-sign entry, all measurement fields optional as in the
source interface. -/
structure VitalLog where
  id : String
  timestamp : Int
  systolic : Option Int
  diastolic : Option Int
  bloodSugar : Option Int
  notes : Option String
deriving DecidableEq

/-- A saved juice recipe. -/
structure JuiceRecipe where
  id : String
  name : String
  description : String
  ingredients : List String
  instructions : List String
  benefits : List String
  macrosEstimate : MacroNutrients
deriving DecidableEq

/-! ## Application state and its mutations (the `App` component) -/

/-- The `App` component's state: the view selector and the three owned
collections. -/
structure AppState where
  view : AppView
  foodLogs : List FoodItem
  recipes : List JuiceRecipe
  vitals : List VitalLog

/-- Model of `addFoodLog`: append the item and return to the dashboard. -/
def addFoodLog (item : FoodItem) (s : AppState) : AppState :=
  { s with foodLogs := s.foodLogs ++ [item], view := .DASHBOARD }

/-- Model of `addRecipe`: append the recipe. -/
def addRecipe (r : JuiceRecipe) (s : AppState) : AppState :=
  { s with recipes := s.recipes ++ [r] }

/-- Model of `removeRecipe`: keep exactly the recipes whose id differs
(`prev.filter(r => r.id !== id)`). -/
def removeRecipe (rid : String) (s : AppState) : AppState :=
  { s with recipes := s.recipes.filter (fun r => r.id != rid) }

/-- Model of `addVitalLog`: append the entry. -/
def addVitalLog (entry : VitalLog) (s : AppState) : AppState :=
  { s with vitals := s.vitals ++ [entry] }

/-! ## Persistence (the load and persist effects of `App`)

Collections are written with `JSON.stringify` on every mutation and read once
at startup inside `try/catch`.  The JSON image of each typed collection is
made explicit by encoders mirroring `JSON.stringify` on the source objects
(an absent optional field is omitted, as `JSON.stringify` omits `undefined`
properties; member order is the object's property order). -/

/-- JSON image of a `MacroNutrients` value. -/
def encodeMacros (m : MacroNutrients) : Json :=
  .obj [("calories", .num m.calories), ("protein", .num m.protein),
    ("carbs", .num m.carbs), ("fat", .num m.fat), ("sugar", .num m.sugar),
    ("sodium", .num m.sodium)]

/-- The literal of a `FoodType` value. -/
def foodTypeName : FoodType → String
  | .meal => "meal"
  | .snack => "snack"
  | .juice => "juice"

/-- JSON image of a `FoodItem`. -/
def encodeFoodItem (f : FoodItem) : Json :=
  .obj ([("id", .str f.id), ("name", .str f.name), ("timestamp", .num f.timestamp),
    ("type", .str (foodTypeName f.type))]
    ++ (match f.image with
        | some im => [("image", .str im)]
        | none => [])
    ++ [("calories", .num f.calories), ("protein", .num f.protein),
      ("carbs", .num f.carbs), ("fat", .num f.fat), ("sugar", .num f.sugar),
      ("sodium", .num f.sodium)])

/-- JSON image of a `VitalLog`. -/
def encodeVitalLog (v : VitalLog) : Json :=
  .obj ([("id", .str v.id), ("timestamp", .num v.timestamp)]
    ++ (match v.systolic with
        | some n => [("systolic", .num n)]
        | none => [])
    ++ (match v.diastolic with
        | some n => [("diastolic", .num n)]
        | none => [])
    ++ (match v.bloodSugar with
        | some n => [("bloodSugar", .num n)]
        | none => [])
    ++ (match v.notes with
        | some s => [("notes", .str s)]
        | none => []))

/-- JSON image of a `JuiceRecipe`. -/
def encodeRecipe (r : JuiceRecipe) : Json :=
  .obj [("id", .str r.id), ("name", .str r.name), ("description", .str r.description),
    ("ingredients", .arr (r.ingredients.map .str)),
    ("instructions", .arr (r.instructions.map .str)),
    ("benefits", .arr (r.benefits.map .str)),
    ("macrosEstimate", encodeMacros r.macrosEstimate)]

/-- JSON image of a food-log collection. -/
def encodeFoodLogs (l : List FoodItem) : Json := .arr (l.map encodeFoodItem)

/-- JSON image of a recipe collection. -/
def encodeRecipes (l : List JuiceRecipe) : Json := .arr (l.map encodeRecipe)

/-- JSON image of a vitals collection. -/
def encodeVitals (l : List VitalLog) : Json := .arr (l.map encodeVitalLog)

/-! ### Decoders

The app never decodes (the parsed value is installed as state directly); these
inverses of the encoders exist to state that a collection's JSON image
determines the collection, which is what "the reloaded collection equals the
original" means across the typed/JSON boundary. -/

/-- Read a JSON string value. -/
def asStr : Option Json → Option String
  | some (.str s) => some s
  | _ => none

/-- Read a JSON integer value. -/
def asNum : Option Json → Option Int
  | some (.num n) => some n
  | _ => none

/-- Read an optional JSON integer field (absent is `none`). -/
def asOptNum : Option Json → Option (Option Int)
  | none => some none
  | some (.num n) => some (some n)
  | _ => none

/-- Read an optional JSON string field (absent is `none`). -/
def asOptStr : Option Json → Option (Option String)
  | none => some none
  | some (.str s) => some (some s)
  | _ => none

/-- Read one JSON string out of an array element. -/
def asOneStr : Json → Option String
  | .str s => some s
  | _ => none

/-- Read a JSON array of strings. -/
def asStrList : Option Json → Option (List String)
  | some (.arr l) => l.mapM asOneStr
  | _ => none

/-- Read a `FoodType` literal back. -/
def foodTypeOf (s : String) : Option FoodType :=
  if s = "meal" then some .meal
  else if s = "snack" then some .snack
  else if s = "juice" then some .juice
  else none

/-- Decode a `MacroNutrients` image. -/
def decodeMacros (j : Json) : Option MacroNutrients :=
  match j with
  | .obj m => do
    let c ← asNum (objLookup m "calories")
    let p ← asNum (objLookup m "protein")
    let cb ← asNum (objLookup m "carbs")
    let f ← asNum (objLookup m "fat")
    let sg ← asNum (objLookup m "sugar")
    let sd ← asNum (objLookup m "sodium")
    return ⟨c, p, cb, f, sg, sd⟩
  | _ => none

/-- Decode a `FoodItem` image. -/
def decodeFoodItem (j : Json) : Option FoodItem :=
  match j with
  | .obj m => do
    let i ← asStr (objLookup m "id")
    let nm ← asStr (objLookup m "name")
    let ts ← asNum (objLookup m "timestamp")
    let ty ← (asStr (objLookup m "type")).bind foodTypeOf
    let im ← asOptStr (objLookup m "image")
    let c ← asNum (objLookup m "calories")
    let p ← asNum (objLookup m "protein")
    let cb ← asNum (objLookup m "carbs")
    let f ← asNum (objLookup m "fat")
    let sg ← asNum (objLookup m "sugar")
    let sd ← asNum (objLookup m "sodium")
    return ⟨i, nm, ts, ty, im, c, p, cb, f, sg, sd⟩
  | _ => none

/-- Decode a `VitalLog` image. -/
def decodeVitalLog (j : Json) : Option VitalLog :=
  match j with
  | .obj m => do
    let i ← asStr (objLookup m "id")
    let ts ← asNum (objLookup m "timestamp")
    let sy ← asOptNum (objLookup m "systolic")
    let di ← asOptNum (objLookup m "diastolic")
    let bs ← asOptNum (objLookup m "bloodSugar")
    let no ← asOptStr (objLookup m "notes")
    return ⟨i, ts, sy, di, bs, no⟩
  | _ => none

/-- Decode a `JuiceRecipe` image. -/
def decodeRecipe (j : Json) : Option JuiceRecipe :=
  match j with
  | .obj m => do
    let i ← asStr (objLookup m "id")
    let nm ← asStr (objLookup m "name")
    let ds ← asStr (objLookup m "description")
    let ing ← asStrList (objLookup m "ingredients")
    let ins ← asStrList (objLookup m "instructions")
    let ben ← asStrList (objLookup m "benefits")
    let mac ← (objLookup m "macrosEstimate").bind decodeMacros
    return ⟨i, nm, ds, ing, ins, ben, mac⟩
  | _ => none

/-- Decode a food-log collection image. -/
def decodeFoodLogs (j : Json) : Option (List FoodItem) :=
  match j with
  | .arr l => l.mapM decodeFoodItem
  | _ => none

/-- Decode a recipe collection image. -/
def decodeRecipes (j : Json) : Option (List JuiceRecipe) :=
  match j with
  | .arr l => l.mapM decodeRecipe
  | _ => none

/-- Decode a vitals collection image. -/
def decodeVitals (j : Json) : Option (List VitalLog) :=
  match j with
  | .arr l => l.mapM decodeVitalLog
  | _ => none

/-- Model of one persist effect: `localStorage.setItem(key,
JSON.stringify(collection))` — the string written for the collection's JSON
image. -/
def persistValue (j : Json) : String := renderJson j

/-- Model of one startup read of a persistence key.  Input is the stored
string, `none` when the key is absent; the result is the collection state
after the effect (the `useState` initial `[]`, i.e. `Json.arr []`, unless a
truthy stored string parses) together with whether the `catch` logged a
failure.  Totality of this function is the `try/catch`: no stored value
makes the effect throw. -/
def loadStoredValue (stored : Option String) : Json × Bool :=
  match stored with
  | none => (.arr [], false)
  | some s =>
    if s = "" then (.arr [], false)
    else
      match parseJson s with
      | none => (.arr [], true)
      | some j => (j, false)

/-! ## The capture flow (the defensive `FoodLens` variant)

The repository has two variants of `FoodLens`; per the specification's §9
note the defensive one (rear-camera fallback, readiness check, unmount
cleanup effect) is authoritative and is the one modelled.  A `MediaStream`
is its track list; streams acquired from `getUserMedia` live in a `CamWorld`
so that stopping a track remains observable after the component drops its
reference.  The component's refs (`videoRef`, `canvasRef`) are taken as
attached, and `Date.now()`, the JPEG encodings and the analysis outcome are
parameters. -/

/-- One track of a media stream, with its stopped flag. -/
structure MediaTrack where
  stopped : Bool
deriving DecidableEq

/-- A media stream is its list of tracks. -/
abbrev MediaStream := List MediaTrack

/-- All streams `getUserMedia` has handed out, in acquisition order; a
component holds an index into this list. -/
structure CamWorld where
  streams : List MediaStream

/-- The `mode` state of the component. -/
inductive LensMode where
  | view : LensMode
  | scan : LensMode
  | text : LensMode
deriving DecidableEq

/-- The `FoodLens` component state the capture flow touches. -/
structure LensState where
  mode : LensMode
  streamIdx : Option Nat
  loading : Bool
  error : Option String

/-- Every track of the stream, stopped (`getTracks().forEach(t => t.stop())`). -/
def stopAllTracks (s : MediaStream) : MediaStream := s.map (fun _ => ⟨true⟩)

/-- The released-resource condition: every track of the stream is stopped. -/
def allStopped (s : MediaStream) : Prop := ∀ t ∈ s, t.stopped = true

/-- Stop the tracks of stream `i` in the world. -/
def stopStreamAt (w : CamWorld) (i : Nat) : CamWorld :=
  ⟨w.streams.set i (stopAllTracks (w.streams.getD i []))⟩

/-- Model of `stopTracks(stream)` guarded by the component's current stream
reference being non-null. -/
def stopHeldTracks (w : CamWorld) (s : LensState) : CamWorld :=
  match s.streamIdx with
  | some i => stopStreamAt w i
  | none => w

/-- Model of `stopCamera`: stop the held tracks and clear the reference. -/
def stopCamera (w : CamWorld) (s : LensState) : CamWorld × LensState :=
  (stopHeldTracks w s, { s with streamIdx := none })

/-- Model of the unmount cleanup of the `useEffect` on `[stream]`: stop the
held tracks (the component state itself is discarded with the component). -/
def unmountCleanup (w : CamWorld) (s : LensState) : CamWorld := stopHeldTracks w s

/-- Model of `closeCameraMode`: `stopCamera()` then `setMode('view')`. -/
def closeCameraMode (w : CamWorld) (s : LensState) : CamWorld × LensState :=
  let p := stopCamera w s
  (p.1, { p.2 with mode := .view })

/-- The error message shown when both camera requests fail. -/
def camDeniedMsg : String :=
  "Camera access was denied or is unavailable. Check your browser permissions."

/-- Model of `startCamera`.  `rear` is the outcome of
`getUserMedia(\x7bvideo: \x7bfacingMode: 'environment'\x7d\x7d)` and `anyCam` the outcome
of the fallback `getUserMedia(\x7bvideo: true\x7d)` (`none` = the request threw);
a successful request appends its stream to the world. -/
def startCamera (rear anyCam : Option MediaStream) (w : CamWorld) (s : LensState) :
    CamWorld × LensState :=
  match rear with
  | some ms =>
    (⟨w.streams ++ [ms]⟩,
      { s with
        streamIdx := some w.streams.length
        mode := .scan
        loading := false
        error := none })
  | none =>
    match anyCam with
    | some ms =>
      (⟨w.streams ++ [ms]⟩,
        { s with
          streamIdx := some w.streams.length
          mode := .scan
          loading := false
          error := none })
    | none =>
      (w, { s with error := some camDeniedMsg, mode := .view, loading := false })

/-- The not-ready error message of the capture readiness check. -/
def notReadyMsg : String := "Camera not ready. Please wait a moment."

/-- The message shown when analysis returns no result. -/
def noFoodMsg : String := "Could not identify food. Try closer or better lighting."

/-- The message shown when analysis throws. -/
def analysisFailMsg : String :=
  "Analysis failed. Please check connection/API key or try text search."

/-- A successful analysis payload at the component's type (`result.name`,
`result.macros`). -/
structure AnalyzedFood where
  name : String
  macros : MacroNutrients

/-- Outcome record of one `captureAndAnalyze` run: the world and component
state after it, the food item handed to `onAddFood` (if any), and whether an
analysis request was issued at all. -/
structure CaptureOutcome where
  world : CamWorld
  state : LensState
  addedFood : Option FoodItem
  analysisRequested : Bool

/-- Model of `captureAndAnalyze` of the defensive variant.  `vw, vh` are the
device's reported `videoWidth` / `videoHeight`; `analysis` the outcome of
`analyzeFoodImage` (throw, `null`, or a result); `now` is `Date.now()` and
`thumb` the low-quality thumbnail data URL. -/
def captureAndAnalyze (vw vh : Nat) (analysis : Except Unit (Option AnalyzedFood))
    (now : Int) (thumb : String) (w : CamWorld) (s : LensState) : CaptureOutcome :=
  if vw = 0 ∨ vh = 0 then
    ⟨w, { s with error := some notReadyMsg, loading := false }, none, false⟩
  else
    match analysis with
    | .ok (some res) =>
      let item : FoodItem :=
        { id := toString now
          name := res.name
          timestamp := now
          type := .meal
          image := some thumb
          calories := res.macros.calories
          protein := res.macros.protein
          carbs := res.macros.carbs
          fat := res.macros.fat
          sugar := res.macros.sugar
          sodium := res.macros.sodium }
      let p := closeCameraMode w s
      ⟨p.1, { p.2 with loading := false }, some item, true⟩
    | .ok none =>
      ⟨w, { s with error := some noFoodMsg, loading := false }, none, true⟩
    | .error _ =>
      ⟨w, { s with error := some analysisFailMsg, loading := false }, none, true⟩

/-! ## Supporting lemmas -/

/-- A list whose ids are distinct splits around a member, and filtering that
member's id away removes exactly it. -/
theorem filter_ne_id_of_nodup (rs : List JuiceRecipe) (r : JuiceRecipe)
    (hmem : r ∈ rs) (hnd : (rs.map (fun x => x.id)).Nodup) :
    ∃ l₁ l₂, rs = l₁ ++ r :: l₂ ∧ rs.filter (fun x => x.id != r.id) = l₁ ++ l₂ := by
  induction rs with
  | nil => cases hmem
  | cons x xs ih =>
    rw [List.map_cons, List.nodup_cons] at hnd
    rcases List.mem_cons.mp hmem with hx | hx
    · subst hx
      refine ⟨[], xs, rfl, ?_⟩
      have hne : ∀ y ∈ xs, (y.id != r.id) = true := by
        intro y hy
        have hmap : y.id ∈ xs.map (fun z => z.id) := List.mem_map_of_mem _ hy
        simp only [bne_iff_ne, ne_eq]
        intro he
        exact hnd.1 (he ▸ hmap)
      simp [List.filter_cons, List.filter_eq_self.mpr hne]
    · obtain ⟨l₁, l₂, hsplit, hfilter⟩ := ih hx hnd.2
      have hxr : (x.id != r.id) = true := by
        have hmap : r.id ∈ xs.map (fun z => z.id) := List.mem_map_of_mem _ hx
        simp only [bne_iff_ne, ne_eq]
        intro he
        exact hnd.1 (he ▸ hmap)
      refine ⟨x :: l₁, l₂, by rw [hsplit]; simp, ?_⟩
      simp only [List.filter_cons, hxr, if_pos, hfilter, List.cons_append]

/-- Every track of a stream is stopped after `stopAllTracks`. -/
theorem stopAllTracks_stopped (s : MediaStream) : allStopped (stopAllTracks s) := by
  intro t ht
  simp only [stopAllTracks, List.mem_map] at ht
  obtain ⟨_, _, rfl⟩ := ht
  rfl

/-- The stream at a valid index, after stopping it in the world. -/
theorem stopStreamAt_getD (w : CamWorld) (i : Nat) (hi : i < w.streams.length) :
    (stopStreamAt w i).streams.getD i [] = stopAllTracks (w.streams.getD i []) := by
  simp [stopStreamAt, List.getD_eq_getElem?_getD, List.getElem?_set_self', hi]

/-- Stopping stream `i` leaves every track of stream `i` stopped. -/
theorem allStopped_stopStreamAt (w : CamWorld) (i : Nat) (hi : i < w.streams.length) :
    allStopped ((stopStreamAt w i).streams.getD i []) := by
  rw [stopStreamAt_getD w i hi]
  exact stopAllTracks_stopped _

/-! ## Lemmas about the defensive-parse string operations -/

/-- Chopping a prefix off itself-plus-suffix yields the suffix. -/
theorem chopPfx_append (t cs : List Char) : chopPfx t (t ++ cs) = some cs := by
  induction t with
  | nil => rfl
  | cons x xs ih => simp [chopPfx, ih]

/-- A match of a longer token is in particular a match of its prefix. -/
theorem chopPfx_isSome_mono (t₁ t₂ cs : List Char)
    (h : (chopPfx (t₁ ++ t₂) cs).isSome = true) : (chopPfx t₁ cs).isSome = true := by
  induction t₁ generalizing cs with
  | nil => rfl
  | cons x xs ih =>
    cases cs with
    | nil => simp [chopPfx] at h
    | cons c cs' =>
      simp only [List.cons_append, chopPfx] at h ⊢
      by_cases hc : c = x
      · simp only [if_pos hc] at h ⊢
        exact ih cs' h
      · simp [if_neg hc] at h

/-- An occurrence of a longer token is an occurrence of its prefix. -/
theorem hasTok_mono (t₁ t₂ cs : List Char) (h : hasTok (t₁ ++ t₂) cs = true) :
    hasTok t₁ cs = true := by
  induction cs with
  | nil =>
    simp only [hasTok] at h ⊢
    exact chopPfx_isSome_mono t₁ t₂ [] h
  | cons c cs' ih =>
    simp only [hasTok, Bool.or_eq_true] at h ⊢
    rcases h with h | h
    · exact Or.inl (chopPfx_isSome_mono t₁ t₂ _ h)
    · exact Or.inr (ih h)

/-- Stripping a token that occurs nowhere is the identity. -/
theorem stripTokF_self (tok : List Char) (fuel : Nat) (cs : List Char)
    (h : hasTok tok cs = false) : stripTokF tok fuel cs = cs := by
  induction fuel generalizing cs with
  | zero => rfl
  | succ fuel ih =>
    cases cs with
    | nil => rfl
    | cons c cs' =>
      simp only [hasTok, Bool.or_eq_false_iff] at h
      have hm : chopPfx tok (c :: cs') = none := by
        cases hcase : chopPfx tok (c :: cs') with
        | none => rfl
        | some r => rw [hcase] at h; simp at h
      simp only [stripTokF, hm, ih cs' h.2]

/-- `stripTok` is the identity when the token occurs nowhere. -/
theorem stripTok_self (tok cs : List Char) (h : hasTok tok cs = false) :
    stripTok tok cs = cs := stripTokF_self tok cs.length cs h

/-- First index of a character occurring right after a run that avoids it. -/
theorem idxOfChar_append (c : Char) (p ys : List Char) (hp : c ∉ p) :
    idxOfChar c (p ++ c :: ys) = some p.length := by
  induction p with
  | nil => simp [idxOfChar]
  | cons x xs ih =>
    have hx : x ≠ c := fun h => hp (h ▸ List.mem_cons_self x xs)
    have hxs : c ∉ xs := fun h => hp (List.mem_cons_of_mem x h)
    simp [idxOfChar, hx, ih hxs]

/-- Last index of a character whose final occurrence closes a run. -/
theorem lastIdxOfChar_append (c : Char) (xs ys : List Char) (hy : c ∉ ys) :
    lastIdxOfChar c (xs ++ c :: ys) = some (xs.length) := by
  have hrev : (xs ++ c :: ys).reverse = ys.reverse ++ c :: xs.reverse := by
    simp
  have hnot : c ∉ ys.reverse := by simpa using hy
  rw [lastIdxOfChar, hrev, idxOfChar_append c ys.reverse xs.reverse hnot]
  simp only [Option.map_some']
  congr 1
  simp only [List.length_append, List.length_cons, List.length_reverse]
  omega

/-- Extracting exactly the middle segment with `substring`. -/
theorem subSpan_extract (p s q : List Char) :
    subSpan p.length (p.length + s.length) (p ++ s ++ q) = s := by
  rw [subSpan, List.append_assoc, List.take_append, List.take_left, List.drop_left]

/-- Whitespace characters are neither brace. -/
theorem isWsChar_facts (c : Char) (h : isWsChar c = true) : c ≠ '{' ∧ c ≠ '}' := by
  simp only [isWsChar, Bool.or_eq_true, decide_eq_true_eq] at h
  rcases h with ((rfl | rfl) | rfl) | rfl <;> exact ⟨by decide, by decide⟩

/-- Trimming a brace-delimited span changes nothing. -/
theorem trimL_braced (mid : List Char) : trimL ('{' :: mid ++ ['}']) = '{' :: mid ++ ['}'] := by
  have h1 : ('{' :: (mid ++ ['}'])).dropWhile isWsChar = '{' :: (mid ++ ['}']) := by
    rw [List.dropWhile_cons]
    simp [isWsChar]
  have h2 : ('{' :: (mid ++ ['}'])).reverse = '}' :: (mid.reverse ++ ['{']) := by
    simp
  have h3 : ('}' :: (mid.reverse ++ ['{'])).dropWhile isWsChar = '}' :: (mid.reverse ++ ['{']) := by
    rw [List.dropWhile_cons]
    simp [isWsChar]
  rw [trimL, trimEnd, List.cons_append, h1, h2, h3, ← h2, List.reverse_reverse]

/-- The defensive parse recovers a brace-delimited JSON span: if the text
after fence stripping is that span surrounded by an open-brace-free prefix
and a close-brace-free suffix, `cleanJson` returns exactly the span. -/
theorem cleanJsonL_recovers (t p1 mid p2 : List Char)
    (hstrip : stripTok fenceTok (stripTok fenceJsonTok t) = p1 ++ ('{' :: mid ++ ['}']) ++ p2)
    (h1 : '{' ∉ p1) (h2 : '}' ∉ p2) :
    cleanJsonL t = '{' :: mid ++ ['}'] := by
  have ht : ¬(t = []) := by
    intro h
    subst h
    simp only [stripTok, List.length_nil, stripTokF] at hstrip
    exact absurd hstrip.symm (by simp)
  have e1 : p1 ++ ('{' :: mid ++ ['}']) ++ p2 = p1 ++ '{' :: (mid ++ ['}'] ++ p2) := by
    simp
  have e2 : p1 ++ ('{' :: mid ++ ['}']) ++ p2 = (p1 ++ '{' :: mid) ++ '}' :: p2 := by
    simp
  have hidx : idxOfChar '{' (p1 ++ ('{' :: mid ++ ['}']) ++ p2) = some p1.length := by
    rw [e1]
    exact idxOfChar_append '{' p1 _ h1
  have hlast : lastIdxOfChar '}' (p1 ++ ('{' :: mid ++ ['}']) ++ p2)
      = some (p1.length + mid.length + 1) := by
    rw [e2, lastIdxOfChar_append '}' _ p2 h2]
    simp only [List.length_append, List.length_cons]
    rfl
  have hsub : subSpan p1.length (p1.length + mid.length + 1 + 1)
      (p1 ++ ('{' :: mid ++ ['}']) ++ p2) = '{' :: mid ++ ['}'] := by
    have hlen : p1.length + mid.length + 1 + 1 = p1.length + ('{' :: mid ++ ['}']).length := by
      simp only [List.cons_append, List.length_cons, List.length_append, List.length_nil]
      omega
    rw [hlen]
    exact subSpan_extract p1 ('{' :: mid ++ ['}']) p2
  rw [cleanJsonL, if_neg ht]
  simp only [hstrip, hidx, hlast]
  rw [if_pos (by omega), hsub, trimL_braced]

/-- The no-fence specialisation: a text that is a brace-delimited JSON span
surrounded by whitespace, with no fence marker anywhere, cleans to the span. -/
theorem cleanJsonL_of_ws (t ws1 mid ws2 : List Char)
    (hdecomp : t = ws1 ++ ('{' :: mid ++ ['}']) ++ ws2)
    (hw1 : ∀ c ∈ ws1, isWsChar c = true) (hw2 : ∀ c ∈ ws2, isWsChar c = true)
    (hfence : hasTok fenceTok t = false) :
    cleanJsonL t = '{' :: mid ++ ['}'] := by
  have hfj : hasTok fenceJsonTok t = false := by
    cases hcase : hasTok fenceJsonTok t with
    | false => rfl
    | true =>
      have : hasTok fenceTok t = true := hasTok_mono fenceTok ['j', 's', 'o', 'n'] t hcase
      rw [this] at hfence
      cases hfence
  refine cleanJsonL_recovers t ws1 mid ws2 ?_ ?_ ?_
  · rw [stripTok_self fenceJsonTok t hfj, stripTok_self fenceTok t hfence, hdecomp]
  · intro hmem
    exact (isWsChar_facts '{' (hw1 '{' hmem)).1 rfl
  · intro hmem
    exact (isWsChar_facts '}' (hw2 '}' hmem)).2 rfl

/-! ## Round-trip of the JSON codec

`JSON.parse` applied to `JSON.stringify` output recovers the value: the
content of the persisted-collections claim.  The proof follows the usual
codec pattern: digit-run and string-escape round-trips first, then a mutual
induction over the value, the fuel bounded by the rendered length. -/

/-- Leading non-whitespace stops `skipWs`. -/
theorem skipWs_cons_not (c : Char) (cs : List Char) (h : isWsChar c = false) :
    skipWs (c :: cs) = c :: cs := by
  simp [skipWs, List.dropWhile_cons, h]

/-- A digit character is none of the parser's dispatch characters and is not
whitespace. -/
theorem isDig_char_facts (c : Char) (h : isDig c = true) :
    c ≠ 'n' ∧ c ≠ 't' ∧ c ≠ 'f' ∧ c ≠ '"' ∧ c ≠ '[' ∧ c ≠ '{' ∧ c ≠ '-'
      ∧ isWsChar c = false := by
  have hx : ∀ d : Char, c = d → isDig d = false → False := by
    intro d hcd hdf
    rw [hcd, hdf] at h
    cases h
  refine ⟨fun hh => hx _ hh (by decide), fun hh => hx _ hh (by decide),
    fun hh => hx _ hh (by decide), fun hh => hx _ hh (by decide),
    fun hh => hx _ hh (by decide), fun hh => hx _ hh (by decide),
    fun hh => hx _ hh (by decide), ?_⟩
  cases hw : isWsChar c with
  | false => rfl
  | true =>
    simp only [isWsChar, Bool.or_eq_true, decide_eq_true_eq] at hw
    rcases hw with ((rfl | rfl) | rfl) | rfl <;> exact absurd h (by decide)

/-- The digit character of `k < 10` is a digit of value `k`. -/
theorem digitOf_facts (k : Nat) (h : k < 10) :
    isDig (digitOf k) = true ∧ (digitOf k).toNat - 48 = k := by
  interval_cases k <;> exact ⟨by decide, by decide⟩

/-- `digsVal` peels its last digit. -/
theorem digsVal_append_single (ds : List Char) (c : Char) :
    digsVal (ds ++ [c]) = 10 * digsVal ds + (c.toNat - 48) := by
  simp [digsVal, List.foldl_append]

/-- The fuelled digit rendering is a nonempty digit run of the right value
whenever the fuel covers the number. -/
theorem natDigsF_spec (fuel : Nat) : ∀ n : Nat, n ≤ fuel →
    natDigsF fuel n ≠ [] ∧ (∀ c ∈ natDigsF fuel n, isDig c = true)
      ∧ digsVal (natDigsF fuel n) = n := by
  induction fuel with
  | zero =>
    intro n hn
    have h0 : n = 0 := by omega
    subst h0
    refine ⟨by simp [natDigsF], ?_, ?_⟩
    · intro c hc
      simp only [natDigsF, List.mem_singleton] at hc
      subst hc
      exact (digitOf_facts (0 % 10) (by omega)).1
    · simp only [natDigsF, digsVal, List.foldl_cons, List.foldl_nil]
      simpa using (digitOf_facts (0 % 10) (by omega)).2
  | succ fuel ih =>
    intro n hn
    by_cases hsmall : n < 10
    · refine ⟨by simp [natDigsF, hsmall], ?_, ?_⟩
      · intro c hc
        simp only [natDigsF, if_pos hsmall, List.mem_singleton] at hc
        subst hc
        exact (digitOf_facts n hsmall).1
      · simp only [natDigsF, if_pos hsmall, digsVal, List.foldl_cons, List.foldl_nil]
        have := (digitOf_facts n hsmall).2
        omega
    · have hrec : n / 10 ≤ fuel := by omega
      obtain ⟨hne, hdig, hval⟩ := ih (n / 10) hrec
      refine ⟨by simp [natDigsF, hsmall], ?_, ?_⟩
      · intro c hc
        simp only [natDigsF, if_neg hsmall, List.mem_append, List.mem_singleton] at hc
        rcases hc with hc | rfl
        · exact hdig c hc
        · exact (digitOf_facts (n % 10) (by omega)).1
      · simp only [natDigsF, if_neg hsmall, digsVal_append_single, hval]
        have := (digitOf_facts (n % 10) (by omega)).2
        omega

/-- The digit rendering of `n` starts with a digit. -/
theorem natDigs_head (n : Nat) :
    ∃ c t, natDigs n = c :: t ∧ isDig c = true := by
  obtain ⟨hne, hdig, _⟩ := natDigsF_spec n n le_rfl
  cases hcase : natDigs n with
  | nil => exact absurd hcase hne
  | cons c t => exact ⟨c, t, rfl, hdig c (by rw [natDigs] at hcase; rw [hcase]; simp)⟩

/-- `takeDigs` splits a digit run glued to a non-digit-headed suffix. -/
theorem takeDigs_append (ds rest : List Char) (hds : ∀ c ∈ ds, isDig c = true)
    (hr : digDelim rest = true) : takeDigs (ds ++ rest) = (ds, rest) := by
  induction ds with
  | nil =>
    cases rest with
    | nil => rfl
    | cons c r =>
      simp only [digDelim, Bool.not_eq_true'] at hr
      simp [takeDigs, hr]
  | cons d ds ih =>
    have hd : isDig d = true := hds d (by simp)
    have hds' : ∀ c ∈ ds, isDig c = true := fun c hc => hds c (by simp [hc])
    simp [takeDigs, hd, ih hds']

/-- Parsing the rendered digits of `n` yields `n`. -/
theorem parseDigs_natDigs (n : Nat) (rest : List Char) (hr : digDelim rest = true) :
    parseDigs (natDigs n ++ rest) = some (n, rest) := by
  obtain ⟨hne, hdig, hval⟩ := natDigsF_spec n n le_rfl
  have hne' : natDigs n ≠ [] := hne
  have hval' : digsVal (natDigs n) = n := hval
  rw [parseDigs, takeDigs_append (natDigs n) rest hdig hr]
  simp only [List.isEmpty_iff]
  rw [if_neg hne', hval']

/-- Parsing the rendered numeral of an integer yields the integer. -/
theorem parseNum_intChars (i : Int) (rest : List Char) (hr : digDelim rest = true) :
    parseNum (intChars i ++ rest) = some (.num i, rest) := by
  by_cases hi : i < 0
  · have hic : intChars i = '-' :: natDigs i.natAbs := by simp [intChars, hi]
    have hiv : (-(i.natAbs : Int)) = i := by omega
    rw [hic, List.cons_append, parseNum]
    rw [if_pos rfl, parseDigs_natDigs i.natAbs rest hr]
    simp only [Option.map_some']
    rw [hiv]
  · obtain ⟨c, t, hct, hdig⟩ := natDigs_head i.natAbs
    have facts := isDig_char_facts c hdig
    have hic : intChars i = c :: t := by rw [intChars, if_neg hi, hct]
    have hiv : ((i.natAbs : Int)) = i := by omega
    rw [hic, List.cons_append, parseNum, if_neg facts.2.2.2.2.2.2.1]
    rw [show c :: (t ++ rest) = natDigs i.natAbs ++ rest by rw [hct]; rfl]
    rw [parseDigs_natDigs i.natAbs rest hr]
    simp only [Option.map_some']
    rw [hiv]

/-- Parsing an escaped string body up to its closing quote recovers it. -/
theorem parseStrBody_quote (rest : List Char) :
    parseStrBody ('"' :: rest) = some ([], rest) := by
  rw [parseStrBody.eq_def]
  rfl

/-- Unfolding of the string-body parser at a raw (unescaped) character. -/
theorem parseStrBody_raw (c : Char) (rest : List Char) (h1 : c ≠ '"') (h2 : c ≠ '\\') :
    parseStrBody (c :: rest) = (parseStrBody rest).map (fun p => (c :: p.1, p.2)) := by
  rw [parseStrBody.eq_def]
  simp [h1, h2]

/-- Unfolding of the string-body parser at an escape pair. -/
theorem parseStrBody_esc (e d : Char) (rest : List Char) (h : unescChar e = some d) :
    parseStrBody ('\\' :: e :: rest) = (parseStrBody rest).map (fun p => (d :: p.1, p.2)) := by
  rw [parseStrBody.eq_def]
  simp [h]

/-- Parsing an escaped string body up to its closing quote recovers it. -/
theorem parseStrBody_escape (l : List Char) : ∀ rest : List Char,
    parseStrBody (escapeChars l ++ '"' :: rest) = some (l, rest) := by
  induction l with
  | nil =>
    intro rest
    rw [show escapeChars [] = [] from rfl, List.nil_append]
    exact parseStrBody_quote rest
  | cons c l ih =>
    intro rest
    have hflat : escapeChars (c :: l) = escChar c ++ escapeChars l := by
      simp [escapeChars]
    by_cases hq : c = '"'
    · subst hq
      rw [hflat, show escChar '"' = ['\\', '"'] from rfl]
      rw [List.append_assoc, List.cons_append, List.cons_append, List.nil_append]
      rw [parseStrBody_esc '"' '"' _ rfl, ih rest]
      rfl
    · by_cases hb : c = '\\'
      · subst hb
        rw [hflat, show escChar '\\' = ['\\', '\\'] from rfl]
        rw [List.append_assoc, List.cons_append, List.cons_append, List.nil_append]
        rw [parseStrBody_esc '\\' '\\' _ rfl, ih rest]
        rfl
      · rw [hflat, show escChar c = [c] from by simp [escChar, hq, hb]]
        rw [List.append_assoc, List.cons_append, List.nil_append]
        rw [parseStrBody_raw c _ hq hb, ih rest]
        rfl

/-! ### Renderer unfoldings and head characters -/

/-- Unfolding of `renderJ` at `null`. -/
theorem renderJ_null : renderJ .null = ['n', 'u', 'l', 'l'] := by simp [renderJ]

/-- Unfolding of `renderJ` at `true`. -/
theorem renderJ_true : renderJ (.bool true) = ['t', 'r', 'u', 'e'] := by simp [renderJ]

/-- Unfolding of `renderJ` at `false`. -/
theorem renderJ_false : renderJ (.bool false) = ['f', 'a', 'l', 's', 'e'] := by simp [renderJ]

/-- Unfolding of `renderJ` at a number. -/
theorem renderJ_num (i : Int) : renderJ (.num i) = intChars i := by simp [renderJ]

/-- Unfolding of `renderJ` at a string. -/
theorem renderJ_str (s : String) : renderJ (.str s) = renderStrL s := by simp [renderJ]

/-- Unfolding of `renderJ` at an array. -/
theorem renderJ_arr (l : List Json) :
    renderJ (.arr l) = '[' :: (renderElems l ++ [']']) := by simp [renderJ]

/-- Unfolding of `renderJ` at an object. -/
theorem renderJ_obj (m : List (String × Json)) :
    renderJ (.obj m) = '{' :: (renderMembers m ++ ['}']) := by simp [renderJ]

/-- Unfolding of `renderElems` at a singleton. -/
theorem renderElems_one (v : Json) : renderElems [v] = renderJ v := by simp [renderElems]

/-- Unfolding of `renderElems` at two or more elements. -/
theorem renderElems_cons2 (v w : Json) (l : List Json) :
    renderElems (v :: w :: l) = renderJ v ++ ',' :: renderElems (w :: l) := by
  simp [renderElems]

/-- Unfolding of `renderMembers` at a singleton. -/
theorem renderMembers_one (k : String) (v : Json) :
    renderMembers [(k, v)] = renderStrL k ++ ':' :: renderJ v := by simp [renderMembers]

/-- Unfolding of `renderMembers` at two or more members. -/
theorem renderMembers_cons2 (k : String) (v : Json) (p : String × Json)
    (m : List (String × Json)) :
    renderMembers ((k, v) :: p :: m)
      = renderStrL k ++ ':' :: renderJ v ++ ',' :: renderMembers (p :: m) := by
  simp [renderMembers]

/-- Every rendered value begins with a character that is not whitespace and
closes nothing. -/
theorem renderJ_head (j : Json) :
    ∃ c t, renderJ j = c :: t ∧ isWsChar c = false ∧ c ≠ ']' ∧ c ≠ '}' ∧ c ≠ ',' := by
  cases j with
  | null => exact ⟨'n', _, renderJ_null, by decide, by decide, by decide, by decide⟩
  | bool b =>
    cases b with
    | true => exact ⟨'t', _, renderJ_true, by decide, by decide, by decide, by decide⟩
    | false => exact ⟨'f', _, renderJ_false, by decide, by decide, by decide, by decide⟩
  | str s => exact ⟨'"', _, by rw [renderJ_str]; rfl, by decide, by decide, by decide, by decide⟩
  | arr l => exact ⟨'[', _, renderJ_arr l, by decide, by decide, by decide, by decide⟩
  | obj m => exact ⟨'{', _, renderJ_obj m, by decide, by decide, by decide, by decide⟩
  | num i =>
    by_cases hi : i < 0
    · exact ⟨'-', _, by rw [renderJ_num, intChars, if_pos hi], by decide, by decide,
        by decide, by decide⟩
    · obtain ⟨c, t, hct, hdig⟩ := natDigs_head i.natAbs
      have facts := isDig_char_facts c hdig
      refine ⟨c, t, ?_, facts.2.2.2.2.2.2.2, ?_, ?_, ?_⟩
      · rw [renderJ_num, intChars, if_neg hi, hct]
      · intro rfl'
        exact absurd hdig (by rw [rfl']; decide)
      · intro rfl'
        exact absurd hdig (by rw [rfl']; decide)
      · intro rfl'
        exact absurd hdig (by rw [rfl']; decide)

/-- The rendering of a nonempty element list begins with a value's head. -/
theorem renderElems_head (v : Json) (l : List Json) :
    ∃ c t, renderElems (v :: l) = c :: t ∧ isWsChar c = false ∧ c ≠ ']' := by
  obtain ⟨c, t, hct, hws, hbr, _, _⟩ := renderJ_head v
  cases l with
  | nil => exact ⟨c, t, by rw [renderElems_one, hct], hws, hbr⟩
  | cons w l' =>
    exact ⟨c, t ++ ',' :: renderElems (w :: l'), by rw [renderElems_cons2, hct]; rfl,
      hws, hbr⟩

/-- `skipWs` does not touch a rendered value glued to a suffix. -/
theorem skipWs_renderJ (v : Json) (rest : List Char) :
    skipWs (renderJ v ++ rest) = renderJ v ++ rest := by
  obtain ⟨c, t, hct, hws, _, _, _⟩ := renderJ_head v
  rw [hct, List.cons_append]
  exact skipWs_cons_not c _ hws

/-- `skipWs` does not touch a rendered element list glued to a suffix. -/
theorem skipWs_renderElems (v : Json) (l : List Json) (rest : List Char) :
    skipWs (renderElems (v :: l) ++ rest) = renderElems (v :: l) ++ rest := by
  obtain ⟨c, t, hct, hws, _⟩ := renderElems_head v l
  rw [hct, List.cons_append]
  exact skipWs_cons_not c _ hws

/-! ### The codec round-trip proper -/

/-- A rendered nonempty member list begins with the key's opening quote. -/
theorem renderMembers_head (k : String) (v : Json) (m : List (String × Json)) :
    ∃ t, renderMembers ((k, v) :: m) = '"' :: t := by
  cases m with
  | nil =>
    refine ⟨escapeChars k.data ++ '"' :: ':' :: renderJ v, ?_⟩
    rw [renderMembers_one]
    simp [renderStrL]
  | cons p m' =>
    refine ⟨escapeChars k.data ++ '"' :: ':' :: (renderJ v ++ ',' :: renderMembers (p :: m')), ?_⟩
    rw [renderMembers_cons2]
    simp [renderStrL]

/-- `skipWs` does not touch a rendered member list glued to a suffix. -/
theorem skipWs_renderMembers (k : String) (v : Json) (m : List (String × Json))
    (rest : List Char) :
    skipWs (renderMembers ((k, v) :: m) ++ rest) = renderMembers ((k, v) :: m) ++ rest := by
  obtain ⟨t, ht⟩ := renderMembers_head k v m
  rw [ht, List.cons_append]
  exact skipWs_cons_not '"' _ (by decide)

/-- The parser's array branch for a nonempty element list wraps `parseElems`. -/
theorem parseVal_arr_branch (fuel : Nat) (v : Json) (l : List Json) (rest : List Char) :
    parseVal (fuel + 1) ('[' :: (renderElems (v :: l) ++ ']' :: rest)) =
      match parseElems fuel (renderElems (v :: l) ++ ']' :: rest) with
      | some p => some (Json.arr p.1, p.2)
      | none => none := by
  obtain ⟨c, t, hct, hws, hne⟩ := renderElems_head v l
  have h1 : renderElems (v :: l) ++ ']' :: rest = c :: (t ++ ']' :: rest) := by
    rw [hct]
    rfl
  simp only [parseVal]
  rw [skipWs_cons_not '[' _ (by decide)]
  simp [h1, hne, skipWs_cons_not c (t ++ ']' :: rest) hws]

/-- The parser's object branch for a nonempty member list wraps
`parseMembers`. -/
theorem parseVal_obj_branch (fuel : Nat) (k : String) (v : Json)
    (m : List (String × Json)) (rest : List Char) :
    parseVal (fuel + 1) ('{' :: (renderMembers ((k, v) :: m) ++ '}' :: rest)) =
      match parseMembers fuel (renderMembers ((k, v) :: m) ++ '}' :: rest) with
      | some p => some (Json.obj p.1, p.2)
      | none => none := by
  obtain ⟨t, ht⟩ := renderMembers_head k v m
  have h1 : renderMembers ((k, v) :: m) ++ '}' :: rest = '"' :: (t ++ '}' :: rest) := by
    rw [ht]
    rfl
  simp only [parseVal]
  rw [skipWs_cons_not '{' _ (by decide)]
  simp [h1, skipWs_cons_not '"' (t ++ '}' :: rest) (by decide)]

/-- The parser recovers a rendered integer numeral at successor fuel. -/
theorem parseVal_num_case (f : Nat) (i : Int) (rest : List Char)
    (hd : digDelim rest = true) :
    parseVal (f + 1) (intChars i ++ rest) = some (.num i, rest) := by
  by_cases hi : i < 0
  · have hic : intChars i = '-' :: natDigs i.natAbs := by simp [intChars, hi]
    rw [hic, List.cons_append]
    simp only [parseVal]
    rw [skipWs_cons_not '-' _ (by decide)]
    simp only [List.cons_append]
    have hpn : parseNum ('-' :: (natDigs i.natAbs ++ rest)) = some (.num i, rest) := by
      rw [← List.cons_append, ← hic]
      exact parseNum_intChars i rest hd
    simp [hpn]
  · obtain ⟨c, t, hct, hdig⟩ := natDigs_head i.natAbs
    have facts := isDig_char_facts c hdig
    have hic : intChars i = c :: t := by rw [intChars, if_neg hi, hct]
    rw [hic, List.cons_append]
    simp only [parseVal]
    rw [skipWs_cons_not c _ facts.2.2.2.2.2.2.2]
    have hpn : parseNum (c :: (t ++ rest)) = some (.num i, rest) := by
      rw [← List.cons_append, ← hic]
      exact parseNum_intChars i rest hd
    simp [facts.1, facts.2.1, facts.2.2.1, facts.2.2.2.1, facts.2.2.2.2.1,
      facts.2.2.2.2.2.1, hdig, hpn]

mutual

/-- Round-trip of one value: parsing its rendering (with any suffix that
does not start with a digit) recovers it, given fuel past the rendered
length. -/
theorem rtVal : ∀ (j : Json) (fuel : Nat) (rest : List Char),
    (renderJ j).length < fuel → digDelim rest = true →
    parseVal fuel (renderJ j ++ rest) = some (j, rest)
  | .null, fuel, rest, hf, _ => by
    cases fuel with
    | zero => exact absurd hf (Nat.not_lt_zero _)
    | succ f =>
      rw [renderJ_null]
      simp [parseVal, skipWs, chopPfx, List.dropWhile_cons, isWsChar]
  | .bool true, fuel, rest, hf, _ => by
    cases fuel with
    | zero => exact absurd hf (Nat.not_lt_zero _)
    | succ f =>
      rw [renderJ_true]
      simp [parseVal, skipWs, chopPfx, List.dropWhile_cons, isWsChar]
  | .bool false, fuel, rest, hf, _ => by
    cases fuel with
    | zero => exact absurd hf (Nat.not_lt_zero _)
    | succ f =>
      rw [renderJ_false]
      simp [parseVal, skipWs, chopPfx, List.dropWhile_cons, isWsChar]
  | .num i, fuel, rest, hf, hd => by
    cases fuel with
    | zero => exact absurd hf (Nat.not_lt_zero _)
    | succ f =>
      rw [renderJ_num]
      exact parseVal_num_case f i rest hd
  | .str s, fuel, rest, hf, _ => by
    cases fuel with
    | zero => exact absurd hf (Nat.not_lt_zero _)
    | succ f =>
      have hr : renderJ (.str s) ++ rest = '"' :: (escapeChars s.data ++ '"' :: rest) := by
        rw [renderJ_str]
        simp [renderStrL]
      rw [hr]
      simp only [parseVal]
      rw [skipWs_cons_not '"' _ (by decide)]
      simp [parseStrBody_escape s.data rest]
  | .arr [], fuel, rest, hf, _ => by
    cases fuel with
    | zero => exact absurd hf (Nat.not_lt_zero _)
    | succ f =>
      have hr : renderJ (.arr []) ++ rest = '[' :: ']' :: rest := by
        rw [renderJ_arr]
        simp [renderElems]
      rw [hr]
      simp [parseVal, skipWs, List.dropWhile_cons, isWsChar]
  | .arr (v :: l), fuel, rest, hf, _ => by
    cases fuel with
    | zero => exact absurd hf (Nat.not_lt_zero _)
    | succ f =>
      have hr : renderJ (.arr (v :: l)) ++ rest
          = '[' :: (renderElems (v :: l) ++ ']' :: rest) := by
        rw [renderJ_arr]
        simp
      have hflen : (renderElems (v :: l)).length + 1 < f := by
        have h2 : (renderJ (.arr (v :: l))).length = (renderElems (v :: l)).length + 2 := by
          rw [renderJ_arr]
          simp
        omega
      rw [hr, parseVal_arr_branch f v l rest, rtElems v l f rest hflen]
  | .obj [], fuel, rest, hf, _ => by
    cases fuel with
    | zero => exact absurd hf (Nat.not_lt_zero _)
    | succ f =>
      have hr : renderJ (.obj []) ++ rest = '{' :: '}' :: rest := by
        rw [renderJ_obj]
        simp [renderMembers]
      rw [hr]
      simp [parseVal, skipWs, List.dropWhile_cons, isWsChar]
  | .obj ((k, v) :: m), fuel, rest, hf, _ => by
    cases fuel with
    | zero => exact absurd hf (Nat.not_lt_zero _)
    | succ f =>
      have hr : renderJ (.obj ((k, v) :: m)) ++ rest
          = '{' :: (renderMembers ((k, v) :: m) ++ '}' :: rest) := by
        rw [renderJ_obj]
        simp
      have hflen : (renderMembers ((k, v) :: m)).length + 1 < f := by
        have h2 : (renderJ (.obj ((k, v) :: m))).length
            = (renderMembers ((k, v) :: m)).length + 2 := by
          rw [renderJ_obj]
          simp
        omega
      rw [hr, parseVal_obj_branch f k v m rest, rtMembers (k, v) m f rest hflen]

/-- Round-trip of a nonempty element list up to its closing bracket. -/
theorem rtElems : ∀ (v : Json) (l : List Json) (fuel : Nat) (rest : List Char),
    (renderElems (v :: l)).length + 1 < fuel →
    parseElems fuel (renderElems (v :: l) ++ ']' :: rest) = some (v :: l, rest)
  | v, [], fuel, rest, hf => by
    cases fuel with
    | zero => exact absurd hf (Nat.not_lt_zero _)
    | succ f =>
      have h1 : renderElems [v] = renderJ v := renderElems_one v
      have hfv : (renderJ v).length < f := by
        rw [h1] at hf
        omega
      have hv := rtVal v f (']' :: rest) hfv rfl
      simp only [parseElems]
      rw [h1, hv]
      simp [skipWs_cons_not ']' rest (by decide)]
  | v, w :: l, fuel, rest, hf => by
    cases fuel with
    | zero => exact absurd hf (Nat.not_lt_zero _)
    | succ f =>
      have hr : renderElems (v :: w :: l) ++ ']' :: rest
          = renderJ v ++ (',' :: (renderElems (w :: l) ++ ']' :: rest)) := by
        rw [renderElems_cons2]
        simp
      have hlen : (renderElems (v :: w :: l)).length
          = (renderJ v).length + 1 + (renderElems (w :: l)).length := by
        rw [renderElems_cons2]
        simp
        omega
      have hfv : (renderJ v).length < f := by omega
      have hfE : (renderElems (w :: l)).length + 1 < f := by omega
      have hv := rtVal v f (',' :: (renderElems (w :: l) ++ ']' :: rest)) hfv rfl
      have hE := rtElems w l f rest hfE
      simp only [parseElems]
      rw [hr, hv]
      simp [skipWs_cons_not ',' (renderElems (w :: l) ++ ']' :: rest) (by decide),
        skipWs_renderElems w l (']' :: rest), hE]

/-- Round-trip of a nonempty member list up to its closing brace. -/
theorem rtMembers : ∀ (kv : String × Json) (m : List (String × Json))
    (fuel : Nat) (rest : List Char),
    (renderMembers (kv :: m)).length + 1 < fuel →
    parseMembers fuel (renderMembers (kv :: m) ++ '}' :: rest) = some (kv :: m, rest)
  | (k, v), [], fuel, rest, hf => by
    cases fuel with
    | zero => exact absurd hf (Nat.not_lt_zero _)
    | succ f =>
      have hr : renderMembers [(k, v)] ++ '}' :: rest
          = '"' :: (escapeChars k.data ++ '"' :: (':' :: (renderJ v ++ '}' :: rest))) := by
        rw [renderMembers_one]
        simp [renderStrL]
      have hlen : (renderMembers [(k, v)]).length
          = (renderStrL k).length + 1 + (renderJ v).length := by
        rw [renderMembers_one]
        simp
        omega
      have hfv : (renderJ v).length < f := by omega
      have hv := rtVal v f ('}' :: rest) hfv rfl
      simp only [parseMembers]
      rw [hr]
      rw [skipWs_cons_not '"' _ (by decide)]
      simp [parseStrBody_escape k.data, skipWs_cons_not ':' _ (by decide),
        skipWs_renderJ v ('}' :: rest), hv, skipWs_cons_not '}' rest (by decide)]
  | (k, v), p :: m, fuel, rest, hf => by
    cases fuel with
    | zero => exact absurd hf (Nat.not_lt_zero _)
    | succ f =>
      have hr : renderMembers ((k, v) :: p :: m) ++ '}' :: rest
          = '"' :: (escapeChars k.data ++ '"' :: (':' :: (renderJ v
              ++ ',' :: (renderMembers (p :: m) ++ '}' :: rest)))) := by
        rw [renderMembers_cons2]
        simp [renderStrL]
      have hlen : (renderMembers ((k, v) :: p :: m)).length
          = (renderStrL k).length + 1 + (renderJ v).length + 1
            + (renderMembers (p :: m)).length := by
        rw [renderMembers_cons2]
        simp
        omega
      have hfv : (renderJ v).length < f := by omega
      have hfM : (renderMembers (p :: m)).length + 1 < f := by omega
      have hv := rtVal v f (',' :: (renderMembers (p :: m) ++ '}' :: rest)) hfv rfl
      have hM := rtMembers p m f rest hfM
      simp only [parseMembers]
      rw [hr]
      rw [skipWs_cons_not '"' _ (by decide)]
      simp [parseStrBody_escape k.data, skipWs_cons_not ':' _ (by decide),
        skipWs_renderJ v _, hv, skipWs_cons_not ',' _ (by decide),
        skipWs_renderMembers p.1 p.2 m ('}' :: rest), hM]

end

/-- The codec round-trip on characters. -/
theorem parseJsonL_renderJ (j : Json) : parseJsonL (renderJ j) = some j := by
  have hv := rtVal j ((renderJ j).length + 1) [] (by omega) rfl
  rw [List.append_nil] at hv
  rw [parseJsonL, hv]
  rfl

/-- The `JSON.parse` / `JSON.stringify` round-trip: parsing the stringified
form of any value recovers the value. -/
theorem parseJson_renderJson (j : Json) : parseJson (renderJson j) = some j :=
  parseJsonL_renderJ j

/-! ## Lemmas about the gateway response processing -/

/-- A nonempty clean text is a nonempty string. -/
theorem mk_cons_ne_empty (c : Char) (cs : List Char) : String.mk (c :: cs) ≠ "" := by
  intro h
  have h2 := congrArg String.data h
  simp at h2

/-- The food response processing fails on clean text that does not parse or
parses to `null`. -/
theorem processFoodResponse_fails (t : String)
    (h : parseJson (cleanJson t) = none ∨ parseJson (cleanJson t) = some .null) :
    ∃ e, processFoodResponse (some t) = .error e := by
  by_cases he : cleanJson t = ""
  · exact ⟨.emptyResponse, by simp [processFoodResponse, he]; rfl⟩
  · rcases h with h | h
    · exact ⟨.badJson, by simp [processFoodResponse, he, h]; rfl⟩
    · refine ⟨.typeErr, ?_⟩
      simp [processFoodResponse, he, h, jsProp]
      rfl

/-- The recipe response processing fails on clean text that does not parse
or parses to `null`. -/
theorem processRecipeResponse_fails (now : String) (t : String)
    (h : parseJson (cleanJson t) = none ∨ parseJson (cleanJson t) = some .null) :
    ∃ e, processRecipeResponse now (some t) = .error e := by
  by_cases he : cleanJson t = ""
  · exact ⟨.emptyResponse, by simp [processRecipeResponse, he]; rfl⟩
  · rcases h with h | h
    · exact ⟨.badJson, by simp [processRecipeResponse, he, h]; rfl⟩
    · refine ⟨.typeErr, ?_⟩
      simp [processRecipeResponse, he, h, jsProp]
      rfl

/-- A `none` response text is processed like the empty string (the source's
`response.text || ""`), and fails. -/
theorem processFoodResponse_none : processFoodResponse none = .error .emptyResponse := rfl

/-- Successful response processing: when the clean text is a span parsing to
an object, the returned record is built by property lookup on that object. -/
theorem processFoodResponse_ok (t : String) (mid : List Char)
    (m : List (String × Json))
    (hclean : cleanJsonL t.data = '{' :: mid ++ ['}'])
    (hparse : parseJsonL ('{' :: mid ++ ['}']) = some (.obj m)) :
    processFoodResponse (some t) =
      .ok ⟨objLookup m "name",
        ⟨objLookup m "calories", objLookup m "protein", objLookup m "carbs",
          objLookup m "fat", objLookup m "sugar", objLookup m "sodium"⟩⟩ := by
  have hcleanS : cleanJson t = String.mk ('{' :: mid ++ ['}']) := by
    rw [cleanJson, hclean]
  have hne : cleanJson t ≠ "" := by
    rw [hcleanS]
    exact mk_cons_ne_empty _ _
  have hpj : parseJson (cleanJson t) = some (.obj m) := by
    rw [hcleanS]
    exact hparse
  simp [processFoodResponse, hne, hpj, jsProp]
  rfl

/-! ## Lemmas about the persistence encoders -/

/-- Decoding the macros image recovers the macros. -/
theorem decodeMacros_encode (mn : MacroNutrients) :
    decodeMacros (encodeMacros mn) = some mn := by
  simp [decodeMacros, encodeMacros, objLookup, asNum]

/-- Reading back a string array image recovers the strings. -/
theorem mapM_asOneStr (l : List String) : (l.map Json.str).mapM asOneStr = some l := by
  induction l with
  | nil => rfl
  | cons s l ih =>
    have ih' : List.mapM.loop asOneStr (l.map Json.str) [] = some l := ih
    rw [List.map_cons, List.mapM_cons]
    simp [asOneStr, ih']

/-- The food-type literal decodes to the food type. -/
theorem foodTypeOf_name (ty : FoodType) : foodTypeOf (foodTypeName ty) = some ty := by
  cases ty <;> rfl

/-- Decoding a food item's image recovers the item. -/
theorem decodeFoodItem_encode (f : FoodItem) :
    decodeFoodItem (encodeFoodItem f) = some f := by
  obtain ⟨i, nm, ts, ty, im, c, p, cb, ft, sg, sd⟩ := f
  cases im <;>
    simp [decodeFoodItem, encodeFoodItem, objLookup, asStr, asNum, asOptStr,
      foodTypeOf_name, foodTypeOf, foodTypeName]
  · cases ty <;> rfl
  · cases ty <;> rfl

/-- Decoding a vital log's image recovers the log. -/
theorem decodeVitalLog_encode (v : VitalLog) :
    decodeVitalLog (encodeVitalLog v) = some v := by
  obtain ⟨i, ts, sy, di, bs, no⟩ := v
  cases sy <;> cases di <;> cases bs <;> cases no <;>
    simp [decodeVitalLog, encodeVitalLog, objLookup, asStr, asNum, asOptNum, asOptStr]

/-- Decoding a recipe's image recovers the recipe. -/
theorem decodeRecipe_encode (r : JuiceRecipe) :
    decodeRecipe (encodeRecipe r) = some r := by
  obtain ⟨i, nm, ds, ing, ins, ben, mac⟩ := r
  have h1 : List.mapM.loop asOneStr (ing.map Json.str) [] = some ing := mapM_asOneStr ing
  have h2 : List.mapM.loop asOneStr (ins.map Json.str) [] = some ins := mapM_asOneStr ins
  have h3 : List.mapM.loop asOneStr (ben.map Json.str) [] = some ben := mapM_asOneStr ben
  simp [decodeRecipe, encodeRecipe, objLookup, asStr, asStrList, mapM_asOneStr,
    h1, h2, h3, decodeMacros_encode]

/-- Decoding an encoded food-item list recovers the list. -/
theorem mapM_decodeFoodItem (l : List FoodItem) :
    (l.map encodeFoodItem).mapM decodeFoodItem = some l := by
  induction l with
  | nil => rfl
  | cons f l ih =>
    have ih' : List.mapM.loop decodeFoodItem (l.map encodeFoodItem) [] = some l := ih
    rw [List.map_cons, List.mapM_cons]
    simp [decodeFoodItem_encode, ih']

/-- Decoding an encoded recipe list recovers the list. -/
theorem mapM_decodeRecipe (l : List JuiceRecipe) :
    (l.map encodeRecipe).mapM decodeRecipe = some l := by
  induction l with
  | nil => rfl
  | cons r l ih =>
    have ih' : List.mapM.loop decodeRecipe (l.map encodeRecipe) [] = some l := ih
    rw [List.map_cons, List.mapM_cons]
    simp [decodeRecipe_encode, ih']

/-- Decoding an encoded vital-log list recovers the list. -/
theorem mapM_decodeVitalLog (l : List VitalLog) :
    (l.map encodeVitalLog).mapM decodeVitalLog = some l := by
  induction l with
  | nil => rfl
  | cons v l ih =>
    have ih' : List.mapM.loop decodeVitalLog (l.map encodeVitalLog) [] = some l := ih
    rw [List.map_cons, List.mapM_cons]
    simp [decodeVitalLog_encode, ih']

/-- The persisted string of a collection (a JSON array) is truthy. -/
theorem renderJson_arr_ne (l : List Json) : renderJson (.arr l) ≠ "" := by
  rw [renderJson, renderJ_arr]
  exact mk_cons_ne_empty _ _

/-- Persist-then-load on any JSON value with a truthy rendering is the
identity on the stored value, with no logged failure. -/
theorem loadStoredValue_persist (j : Json) (hne : renderJson j ≠ "") :
    loadStoredValue (some (persistValue j)) = (j, false) := by
  simp [loadStoredValue, persistValue, hne, parseJson_renderJson j]

/-! ## Claim theorems: the AI analysis gateway -/

/-- C1 counterexample: a schema-conforming response whose `name` contains a
Markdown fence marker.  The response text parses (first conjunct) as an
object with the string name `a``` b` and the six numeric fields, yet the
gateway's fence stripping corrupts the name before parsing: the returned
record carries the name `ab` (second conjunct), which differs from the
response's name field (third conjunct).  So the record is not returned
"unchanged" for every conforming response. -/
theorem C1_fence_marker_in_name_counterexample :
    parseJson "\x7b\"name\":\"a``` b\",\"calories\":1,\"protein\":2,\"carbs\":3,\"fat\":4,\"sugar\":5,\"sodium\":6\x7d"
      = some (.obj [("name", .str "a``` b"), ("calories", .num 1), ("protein", .num 2),
        ("carbs", .num 3), ("fat", .num 4), ("sugar", .num 5), ("sodium", .num 6)]) ∧
    analyzeFoodImage (.ok (some "\x7b\"name\":\"a``` b\",\"calories\":1,\"protein\":2,\"carbs\":3,\"fat\":4,\"sugar\":5,\"sodium\":6\x7d"))
      = .ok ⟨some (.str "ab"), ⟨some (.num 1), some (.num 2), some (.num 3),
        some (.num 4), some (.num 5), some (.num 6)⟩⟩ ∧
    ("ab" : String) ≠ "a``` b" :=
  ⟨rfl, rfl, by decide⟩

/-- C1 (amended with the proviso the counterexample forces: the response
text contains no Markdown fence marker): a response that parses as a
schema-conforming JSON object — whitespace, then the object span, then
whitespace — is returned by both food-analysis operations as a record whose
name and six macro numbers are exactly the response's fields, unchanged. -/
theorem C1_analyzeFood_returns_exact_fields (t : String) (ws1 mid ws2 : List Char)
    (m : List (String × Json)) (nm : String) (c p cb f sg sd : Int)
    (hdecomp : t.data = ws1 ++ ('{' :: mid ++ ['}']) ++ ws2)
    (hw1 : ∀ ch ∈ ws1, isWsChar ch = true)
    (hw2 : ∀ ch ∈ ws2, isWsChar ch = true)
    (hfence : hasTok fenceTok t.data = false)
    (hparse : parseJsonL ('{' :: mid ++ ['}']) = some (.obj m))
    (hname : objLookup m "name" = some (.str nm))
    (hcal : objLookup m "calories" = some (.num c))
    (hpro : objLookup m "protein" = some (.num p))
    (hcarbs : objLookup m "carbs" = some (.num cb))
    (hfat : objLookup m "fat" = some (.num f))
    (hsugar : objLookup m "sugar" = some (.num sg))
    (hsodium : objLookup m "sodium" = some (.num sd)) :
    analyzeFoodImage (.ok (some t)) =
      .ok ⟨some (.str nm), ⟨some (.num c), some (.num p), some (.num cb),
        some (.num f), some (.num sg), some (.num sd)⟩⟩ ∧
    analyzeFoodText (.ok (some t)) =
      .ok ⟨some (.str nm), ⟨some (.num c), some (.num p), some (.num cb),
        some (.num f), some (.num sg), some (.num sd)⟩⟩ := by
  have hclean : cleanJsonL t.data = '{' :: mid ++ ['}'] :=
    cleanJsonL_of_ws t.data ws1 mid ws2 hdecomp hw1 hw2 hfence
  have hok := processFoodResponse_ok t mid m hclean hparse
  rw [hname, hcal, hpro, hcarbs, hfat, hsugar, hsodium] at hok
  exact ⟨hok, hok⟩

/-- C1 witness: the specification's own example response, analysed exactly. -/
theorem C1_analyzeFood_returns_exact_fields_witness :
    analyzeFoodImage (.ok (some "\x7b\"name\":\"Eggs and Avocado Toast\",\"calories\":350,\"protein\":15,\"carbs\":30,\"fat\":20,\"sugar\":2,\"sodium\":400\x7d"))
      = .ok ⟨some (.str "Eggs and Avocado Toast"), ⟨some (.num 350), some (.num 15),
        some (.num 30), some (.num 20), some (.num 2), some (.num 400)⟩⟩ ∧
    analyzeFoodText (.ok (some "\x7b\"name\":\"Eggs and Avocado Toast\",\"calories\":350,\"protein\":15,\"carbs\":30,\"fat\":20,\"sugar\":2,\"sodium\":400\x7d"))
      = .ok ⟨some (.str "Eggs and Avocado Toast"), ⟨some (.num 350), some (.num 15),
        some (.num 30), some (.num 20), some (.num 2), some (.num 400)⟩⟩ :=
  C1_analyzeFood_returns_exact_fields
    "\x7b\"name\":\"Eggs and Avocado Toast\",\"calories\":350,\"protein\":15,\"carbs\":30,\"fat\":20,\"sugar\":2,\"sodium\":400\x7d"
    [] ("\"name\":\"Eggs and Avocado Toast\",\"calories\":350,\"protein\":15,\"carbs\":30,\"fat\":20,\"sugar\":2,\"sodium\":400".data) []
    [("name", .str "Eggs and Avocado Toast"), ("calories", .num 350), ("protein", .num 15),
      ("carbs", .num 30), ("fat", .num 20), ("sugar", .num 2), ("sodium", .num 400)]
    "Eggs and Avocado Toast" 350 15 30 20 2 400
    (by decide) (by simp) (by simp) (by decide) rfl
    rfl rfl rfl rfl rfl rfl rfl

/-- C2 counterexample: the response text `42` contains no recoverable
brace span (first conjunct: it has no opening brace at all), yet the
operation does not fail: `JSON.parse` accepts the bare numeral and property
access on a number yields `undefined`, so a record with every field
undefined is returned (second conjunct). -/
theorem C2_no_span_numeral_counterexample :
    idxOfChar '{' "42".data = none ∧
    analyzeFoodImage (.ok (some "42")) =
      .ok ⟨none, ⟨none, none, none, none, none, none⟩⟩ :=
  ⟨rfl, rfl⟩

/-- C2 (amended as the counterexample forces): (a) recovery — any response
whose fence-stripped text is a brace-delimited JSON span surrounded by
brace-free text is recovered and parsed by `cleanJson` + `JSON.parse`;
(b) failure — a response whose defensively-cleaned text does not parse as
JSON, or parses to `null`, makes the operation fail.  (A no-span response
whose cleaned text is itself a valid non-`null` JSON literal, such as `42`,
instead yields a record of undefined fields — the counterexample.) -/
theorem C2_defensive_parse_recovery_and_failure :
    (∀ (t : String) (p1 mid p2 : List Char) (j : Json),
      stripTok fenceTok (stripTok fenceJsonTok t.data) = p1 ++ ('{' :: mid ++ ['}']) ++ p2 →
      '{' ∉ p1 → '}' ∉ p2 →
      parseJsonL ('{' :: mid ++ ['}']) = some j →
      parseJson (cleanJson t) = some j) ∧
    (∀ t : String,
      parseJson (cleanJson t) = none ∨ parseJson (cleanJson t) = some .null →
      ∃ e, analyzeFoodImage (.ok (some t)) = .error e) := by
  constructor
  · intro t p1 mid p2 j hstrip h1 h2 hparse
    have hclean : cleanJsonL t.data = '{' :: mid ++ ['}'] :=
      cleanJsonL_recovers t.data p1 mid p2 hstrip h1 h2
    rw [cleanJson, hclean]
    exact hparse
  · intro t h
    obtain ⟨e, he⟩ := processFoodResponse_fails t h
    exact ⟨e, he⟩

/-- C2 witness: a fence-wrapped object is recovered, and an unparseable
response fails. -/
theorem C2_defensive_parse_recovery_and_failure_witness :
    parseJson (cleanJson "```json\n\x7b\"a\":1\x7d\n```") = some (.obj [("a", .num 1)]) ∧
    (∃ e, analyzeFoodImage (.ok (some "oops")) = .error e) :=
  ⟨C2_defensive_parse_recovery_and_failure.1 "```json\n\x7b\"a\":1\x7d\n```"
      [] ("\"a\":1".data) ['\n'] (.obj [("a", .num 1)])
      (by decide) (by decide) (by decide) rfl,
    C2_defensive_parse_recovery_and_failure.2 "oops" (Or.inl rfl)⟩

/-- C6 counterexample: a response violating the recipe schema (only `name`
present, every other required field missing) does not surface the
"recipe generation failed" condition: the operation succeeds and returns a
partially-populated recipe record whose other fields are undefined. -/
theorem C6_partial_recipe_counterexample :
    generateJuiceRecipe "1" (.ok (some "\x7b\"name\":\"X\"\x7d")) =
      .ok ⟨"1", some (.str "X"), none, none, none, none, none⟩ :=
  rfl

/-- C6 (amended as the counterexample forces): every endpoint error, and
every response whose cleaned text fails to parse as JSON or parses to
`null` — the only schema violations the code can notice — surfaces as the
single "recipe generation failed" condition.  A response that parses to any
other JSON value is not validated against the schema: its missing or
mistyped fields flow into the returned record as undefined. -/
theorem C6_recipe_failure_single_condition (now : String)
    (resp : Except Unit (Option String))
    (h : resp = .error () ∨ ∃ t, resp = .ok t ∧
      (parseJson (cleanJson (t.getD "")) = none
        ∨ parseJson (cleanJson (t.getD "")) = some .null)) :
    generateJuiceRecipe now resp = .error recipeFailMsg := by
  rcases h with rfl | ⟨t, rfl, hp⟩
  · rfl
  · cases t with
    | none => rfl
    | some u =>
      obtain ⟨e, he⟩ := processRecipeResponse_fails now u (by simpa using hp)
      simp [generateJuiceRecipe, he]

/-- C6 witness: a concrete unparseable response surfaces the single failure
condition. -/
theorem C6_recipe_failure_single_condition_witness :
    generateJuiceRecipe "9" (.ok (some "oops")) = .error recipeFailMsg :=
  C6_recipe_failure_single_condition "9" (.ok (some "oops"))
    (Or.inr ⟨some "oops", rfl, Or.inl rfl⟩)

/-! ## Claim theorems: capture flow and application state -/

/-- C3: from a streaming state, every exit of the capture flow leaves no
track of the acquired stream running.  Successful capture-and-log and
explicit cancel (`closeCameraMode`) stop every track and leave the scan UI;
component teardown (the unmount cleanup) stops every track; an analysis
error does not exit the streaming state (the scan UI stays open with the
stream held, per the flow's retry design), and the teardown that eventually
follows it stops every track. -/
theorem C3_capture_exits_release_stream (w : CamWorld) (s : LensState) (i : Nat)
    (res : AnalyzedFood) (now : Int) (thumb : String) (vw vh : Nat)
    (hmode : s.mode = .scan) (hidx : s.streamIdx = some i)
    (hi : i < w.streams.length) (hvw : vw ≠ 0) (hvh : vh ≠ 0) :
    (allStopped ((captureAndAnalyze vw vh (.ok (some res)) now thumb w s).world.streams.getD i [])
      ∧ (captureAndAnalyze vw vh (.ok (some res)) now thumb w s).state.mode = .view
      ∧ (captureAndAnalyze vw vh (.ok (some res)) now thumb w s).state.streamIdx = none) ∧
    (allStopped ((closeCameraMode w s).1.streams.getD i [])
      ∧ (closeCameraMode w s).2.mode = .view
      ∧ (closeCameraMode w s).2.streamIdx = none) ∧
    allStopped ((unmountCleanup w s).streams.getD i []) ∧
    ((captureAndAnalyze vw vh (.error ()) now thumb w s).state.mode = .scan
      ∧ (captureAndAnalyze vw vh (.error ()) now thumb w s).state.streamIdx = some i
      ∧ allStopped ((unmountCleanup (captureAndAnalyze vw vh (.error ()) now thumb w s).world
          (captureAndAnalyze vw vh (.error ()) now thumb w s).state).streams.getD i [])) := by
  have hno : ¬(vw = 0 ∨ vh = 0) := by
    rintro (h | h)
    · exact hvw h
    · exact hvh h
  refine ⟨⟨?_, ?_, ?_⟩, ⟨?_, ?_, ?_⟩, ?_, ?_, ?_, ?_⟩
  · simp only [captureAndAnalyze, if_neg hno, closeCameraMode, stopCamera, stopHeldTracks, hidx]
    exact allStopped_stopStreamAt w i hi
  · simp [captureAndAnalyze, if_neg hno, closeCameraMode, stopCamera]
  · simp [captureAndAnalyze, if_neg hno, closeCameraMode, stopCamera]
  · simp only [closeCameraMode, stopCamera, stopHeldTracks, hidx]
    exact allStopped_stopStreamAt w i hi
  · simp [closeCameraMode, stopCamera]
  · simp [closeCameraMode, stopCamera]
  · simp only [unmountCleanup, stopHeldTracks, hidx]
    exact allStopped_stopStreamAt w i hi
  · simp [captureAndAnalyze, if_neg hno, hmode]
  · simp [captureAndAnalyze, if_neg hno, hidx]
  · simp only [captureAndAnalyze, if_neg hno, unmountCleanup, stopHeldTracks, hidx]
    exact allStopped_stopStreamAt w i hi

/-- C3 witness: the exit properties at a concrete streaming state holding a
one-track stream. -/
theorem C3_capture_exits_release_stream_witness :
    ((⟨.scan, some 0, false, none⟩ : LensState).mode = .scan
      ∧ (⟨.scan, some 0, false, none⟩ : LensState).streamIdx = some 0
      ∧ 0 < (⟨[[⟨false⟩]]⟩ : CamWorld).streams.length) ∧
    (allStopped ((captureAndAnalyze 2 2 (.ok (some ⟨"Egg", ⟨1, 2, 3, 4, 5, 6⟩⟩)) 7 "t"
        ⟨[[⟨false⟩]]⟩ ⟨.scan, some 0, false, none⟩).world.streams.getD 0 [])
      ∧ (captureAndAnalyze 2 2 (.ok (some ⟨"Egg", ⟨1, 2, 3, 4, 5, 6⟩⟩)) 7 "t"
        ⟨[[⟨false⟩]]⟩ ⟨.scan, some 0, false, none⟩).state.mode = .view
      ∧ (captureAndAnalyze 2 2 (.ok (some ⟨"Egg", ⟨1, 2, 3, 4, 5, 6⟩⟩)) 7 "t"
        ⟨[[⟨false⟩]]⟩ ⟨.scan, some 0, false, none⟩).state.streamIdx = none) ∧
    (allStopped ((closeCameraMode ⟨[[⟨false⟩]]⟩ ⟨.scan, some 0, false, none⟩).1.streams.getD 0 [])
      ∧ (closeCameraMode ⟨[[⟨false⟩]]⟩ ⟨.scan, some 0, false, none⟩).2.mode = .view
      ∧ (closeCameraMode ⟨[[⟨false⟩]]⟩ ⟨.scan, some 0, false, none⟩).2.streamIdx = none) ∧
    allStopped ((unmountCleanup ⟨[[⟨false⟩]]⟩ ⟨.scan, some 0, false, none⟩).streams.getD 0 []) ∧
    ((captureAndAnalyze 2 2 (.error ()) 7 "t"
        ⟨[[⟨false⟩]]⟩ ⟨.scan, some 0, false, none⟩).state.mode = .scan
      ∧ (captureAndAnalyze 2 2 (.error ()) 7 "t"
        ⟨[[⟨false⟩]]⟩ ⟨.scan, some 0, false, none⟩).state.streamIdx = some 0
      ∧ allStopped ((unmountCleanup
          (captureAndAnalyze 2 2 (.error ()) 7 "t"
            ⟨[[⟨false⟩]]⟩ ⟨.scan, some 0, false, none⟩).world
          (captureAndAnalyze 2 2 (.error ()) 7 "t"
            ⟨[[⟨false⟩]]⟩ ⟨.scan, some 0, false, none⟩).state).streams.getD 0 [])) :=
  ⟨⟨rfl, rfl, by decide⟩,
    C3_capture_exits_release_stream ⟨[[⟨false⟩]]⟩ ⟨.scan, some 0, false, none⟩ 0
      ⟨"Egg", ⟨1, 2, 3, 4, 5, 6⟩⟩ 7 "t" 2 2 rfl rfl (by decide) (by decide) (by decide)⟩

/-- C4: camera acquisition requests the rear-facing device first; a rear
failure falls back to the unconstrained device request; only when both fail
does the flow move to an error-displaying idle state (mode `view` with the
denial message shown), leaving the world unchanged. -/
theorem C4_startCamera_rear_then_fallback (rear anyCam : Option MediaStream)
    (w : CamWorld) (s : LensState) :
    (∀ ms, rear = some ms →
      (startCamera rear anyCam w s).2.mode = .scan
        ∧ (startCamera rear anyCam w s).2.streamIdx = some w.streams.length
        ∧ (startCamera rear anyCam w s).1.streams.getD w.streams.length [] = ms
        ∧ (startCamera rear anyCam w s).2.error = none) ∧
    (rear = none → ∀ ms, anyCam = some ms →
      (startCamera rear anyCam w s).2.mode = .scan
        ∧ (startCamera rear anyCam w s).2.streamIdx = some w.streams.length
        ∧ (startCamera rear anyCam w s).1.streams.getD w.streams.length [] = ms
        ∧ (startCamera rear anyCam w s).2.error = none) ∧
    (rear = none → anyCam = none →
      (startCamera rear anyCam w s).2.mode = .view
        ∧ (startCamera rear anyCam w s).2.error = some camDeniedMsg
        ∧ (startCamera rear anyCam w s).1 = w
        ∧ (startCamera rear anyCam w s).2.streamIdx = s.streamIdx) := by
  refine ⟨?_, ?_, ?_⟩
  · rintro ms rfl
    refine ⟨rfl, rfl, ?_, rfl⟩
    simp [startCamera, List.getD]
  · rintro rfl ms rfl
    refine ⟨rfl, rfl, ?_, rfl⟩
    simp [startCamera, List.getD]
  · rintro rfl rfl
    exact ⟨rfl, rfl, rfl, rfl⟩

/-- C4 witness: the three acquisition outcomes at concrete inputs. -/
theorem C4_startCamera_rear_then_fallback_witness :
    ((startCamera (some [⟨false⟩]) none ⟨[]⟩ ⟨.view, none, false, none⟩).2.mode = .scan
      ∧ (startCamera (some [⟨false⟩]) none ⟨[]⟩ ⟨.view, none, false, none⟩).2.streamIdx
          = some 0
      ∧ (startCamera (some [⟨false⟩]) none ⟨[]⟩
          ⟨.view, none, false, none⟩).1.streams.getD 0 [] = [⟨false⟩]
      ∧ (startCamera (some [⟨false⟩]) none ⟨[]⟩ ⟨.view, none, false, none⟩).2.error = none) ∧
    ((startCamera none (some [⟨false⟩]) ⟨[]⟩ ⟨.view, none, false, none⟩).2.mode = .scan
      ∧ (startCamera none (some [⟨false⟩]) ⟨[]⟩ ⟨.view, none, false, none⟩).2.streamIdx
          = some 0
      ∧ (startCamera none (some [⟨false⟩]) ⟨[]⟩
          ⟨.view, none, false, none⟩).1.streams.getD 0 [] = [⟨false⟩]
      ∧ (startCamera none (some [⟨false⟩]) ⟨[]⟩ ⟨.view, none, false, none⟩).2.error = none) ∧
    ((startCamera none none ⟨[]⟩ ⟨.view, none, false, none⟩).2.mode = .view
      ∧ (startCamera none none ⟨[]⟩ ⟨.view, none, false, none⟩).2.error = some camDeniedMsg
      ∧ (startCamera none none ⟨[]⟩ ⟨.view, none, false, none⟩).1 = ⟨[]⟩) := by
  have h := C4_startCamera_rear_then_fallback (some [⟨false⟩]) none ⟨[]⟩
    ⟨.view, none, false, none⟩
  have h2 := C4_startCamera_rear_then_fallback none (some [⟨false⟩]) ⟨[]⟩
    ⟨.view, none, false, none⟩
  have h3 := C4_startCamera_rear_then_fallback none none ⟨[]⟩ ⟨.view, none, false, none⟩
  exact ⟨h.1 [⟨false⟩] rfl, h2.2.1 rfl [⟨false⟩] rfl,
    (h3.2.2 rfl rfl).1, (h3.2.2 rfl rfl).2.1, (h3.2.2 rfl rfl).2.2.1⟩

/-- C5: a capture attempted while the device reports a zero frame dimension
is rejected with the not-ready message, issues no analysis request, adds no
food-log entry, and leaves world and stream untouched. -/
theorem C5_capture_rejected_when_not_ready (vw vh : Nat)
    (analysis : Except Unit (Option AnalyzedFood)) (now : Int) (thumb : String)
    (w : CamWorld) (s : LensState) (h : vw = 0 ∨ vh = 0) :
    captureAndAnalyze vw vh analysis now thumb w s =
      ⟨w, { s with error := some notReadyMsg, loading := false }, none, false⟩ := by
  simp [captureAndAnalyze, if_pos h]

/-- C5 witness: the rejected capture at a concrete zero-width device. -/
theorem C5_capture_rejected_when_not_ready_witness :
    ((0 : Nat) = 0 ∨ (2 : Nat) = 0) ∧
    captureAndAnalyze 0 2 (.ok (some ⟨"Egg", ⟨1, 2, 3, 4, 5, 6⟩⟩)) 7 "t"
        ⟨[[⟨false⟩]]⟩ ⟨.scan, some 0, false, none⟩ =
      ⟨⟨[[⟨false⟩]]⟩, { (⟨.scan, some 0, false, none⟩ : LensState) with
          error := some notReadyMsg, loading := false }, none, false⟩ :=
  ⟨Or.inl rfl,
    C5_capture_rejected_when_not_ready 0 2 (.ok (some ⟨"Egg", ⟨1, 2, 3, 4, 5, 6⟩⟩)) 7 "t"
      ⟨[[⟨false⟩]]⟩ ⟨.scan, some 0, false, none⟩ (Or.inl rfl)⟩

/-- C7: persist-then-load is the identity on collections.  For each of the
three collections, writing its `JSON.stringify` image to the key and reading
the key back as a fresh startup does yields exactly the stored collection
value with no logged failure (first conjunct of each pair), and that JSON
image determines the original typed collection — decoding it recovers the
collection, so the reloaded state is equal to the original as a collection
(second conjunct of each pair). -/
theorem C7_persisted_collections_roundtrip (foods : List FoodItem)
    (recs : List JuiceRecipe) (vits : List VitalLog) :
    (loadStoredValue (some (persistValue (encodeFoodLogs foods)))
        = (encodeFoodLogs foods, false)
      ∧ decodeFoodLogs (encodeFoodLogs foods) = some foods) ∧
    (loadStoredValue (some (persistValue (encodeRecipes recs)))
        = (encodeRecipes recs, false)
      ∧ decodeRecipes (encodeRecipes recs) = some recs) ∧
    (loadStoredValue (some (persistValue (encodeVitals vits)))
        = (encodeVitals vits, false)
      ∧ decodeVitals (encodeVitals vits) = some vits) := by
  refine ⟨⟨?_, ?_⟩, ⟨?_, ?_⟩, ⟨?_, ?_⟩⟩
  · exact loadStoredValue_persist _ (renderJson_arr_ne _)
  · exact mapM_decodeFoodItem foods
  · exact loadStoredValue_persist _ (renderJson_arr_ne _)
  · exact mapM_decodeRecipe recs
  · exact loadStoredValue_persist _ (renderJson_arr_ne _)
  · exact mapM_decodeVitalLog vits

/-- C8: a startup read whose stored value is missing, empty, or fails to
parse leaves the collection at the empty collection; a truthy stored string
that fails to parse is logged.  That the read is total — returning a value
for every stored string instead of propagating a parse exception — is the
modelled `try/catch`: startup cannot crash on a corrupted value. -/
theorem C8_load_missing_or_malformed (stored : Option String)
    (h : stored = none ∨ ∃ t, stored = some t ∧ parseJson t = none) :
    (loadStoredValue stored).1 = .arr [] ∧
      (∀ t, stored = some t → t ≠ "" → (loadStoredValue stored).2 = true) := by
  rcases h with rfl | ⟨t, rfl, hp⟩
  · exact ⟨rfl, fun t ht => by cases ht⟩
  · constructor
    · by_cases he : t = ""
      · subst he
        rfl
      · simp [loadStoredValue, he, hp]
    · intro u hu hne
      obtain rfl : t = u := by injection hu
      simp [loadStoredValue, hne, hp]

/-- C8 witness: a concrete corrupted stored value loads as the empty
collection and is logged. -/
theorem C8_load_missing_or_malformed_witness :
    ((some "\x7boops" : Option String) = none
      ∨ ∃ t, (some "\x7boops" : Option String) = some t ∧ parseJson t = none) ∧
    (loadStoredValue (some "\x7boops")).1 = .arr [] ∧
      (∀ t, (some "\x7boops" : Option String) = some t → t ≠ ""
        → (loadStoredValue (some "\x7boops")).2 = true) :=
  ⟨Or.inr ⟨"\x7boops", rfl, rfl⟩,
    C8_load_missing_or_malformed (some "\x7boops") (Or.inr ⟨"\x7boops", rfl, rfl⟩)⟩

/-- C9: when the collection's ids are distinct (so "that entry" is the one
entry carrying the id), deleting a member's id removes exactly that entry:
the collection splits around it and the deletion result is the two
surrounding segments in their original order. -/
theorem C9_removeRecipe_removes_exactly (s : AppState) (r : JuiceRecipe)
    (hmem : r ∈ s.recipes) (hnd : (s.recipes.map (fun x => x.id)).Nodup) :
    ∃ l₁ l₂, s.recipes = l₁ ++ r :: l₂ ∧ (removeRecipe r.id s).recipes = l₁ ++ l₂ := by
  simpa [removeRecipe] using filter_ne_id_of_nodup s.recipes r hmem hnd

/-- C9 witness: deleting the middle entry of a concrete three-recipe
collection. -/
theorem C9_removeRecipe_removes_exactly_witness :
    ((⟨"2", "B", "", [], [], [], ⟨0, 0, 0, 0, 0, 0⟩⟩ : JuiceRecipe) ∈
        (⟨.JUICE_BAR,
          [],
          [⟨"1", "A", "", [], [], [], ⟨0, 0, 0, 0, 0, 0⟩⟩,
            ⟨"2", "B", "", [], [], [], ⟨0, 0, 0, 0, 0, 0⟩⟩,
            ⟨"3", "C", "", [], [], [], ⟨0, 0, 0, 0, 0, 0⟩⟩],
          []⟩ : AppState).recipes
      ∧ ((⟨.JUICE_BAR,
          [],
          [⟨"1", "A", "", [], [], [], ⟨0, 0, 0, 0, 0, 0⟩⟩,
            ⟨"2", "B", "", [], [], [], ⟨0, 0, 0, 0, 0, 0⟩⟩,
            ⟨"3", "C", "", [], [], [], ⟨0, 0, 0, 0, 0, 0⟩⟩],
          []⟩ : AppState).recipes.map (fun x => x.id)).Nodup) ∧
    (∃ l₁ l₂,
      (⟨.JUICE_BAR,
        [],
        [⟨"1", "A", "", [], [], [], ⟨0, 0, 0, 0, 0, 0⟩⟩,
          ⟨"2", "B", "", [], [], [], ⟨0, 0, 0, 0, 0, 0⟩⟩,
          ⟨"3", "C", "", [], [], [], ⟨0, 0, 0, 0, 0, 0⟩⟩],
        []⟩ : AppState).recipes = l₁ ++ (⟨"2", "B", "", [], [], [], ⟨0, 0, 0, 0, 0, 0⟩⟩ : JuiceRecipe) :: l₂
      ∧ (removeRecipe "2"
          ⟨.JUICE_BAR,
            [],
            [⟨"1", "A", "", [], [], [], ⟨0, 0, 0, 0, 0, 0⟩⟩,
              ⟨"2", "B", "", [], [], [], ⟨0, 0, 0, 0, 0, 0⟩⟩,
              ⟨"3", "C", "", [], [], [], ⟨0, 0, 0, 0, 0, 0⟩⟩],
            []⟩).recipes = l₁ ++ l₂) :=
  ⟨⟨by decide, by decide⟩,
    C9_removeRecipe_removes_exactly
      ⟨.JUICE_BAR,
        [],
        [⟨"1", "A", "", [], [], [], ⟨0, 0, 0, 0, 0, 0⟩⟩,
          ⟨"2", "B", "", [], [], [], ⟨0, 0, 0, 0, 0, 0⟩⟩,
          ⟨"3", "C", "", [], [], [], ⟨0, 0, 0, 0, 0, 0⟩⟩],
        []⟩
      ⟨"2", "B", "", [], [], [], ⟨0, 0, 0, 0, 0, 0⟩⟩ (by decide) (by decide)⟩

/-- C10: each state mutation touches only its own collection — `addFoodLog`
leaves recipes and vitals unchanged, `addRecipe` and `removeRecipe` leave
food logs and vitals unchanged, and `addVitalLog` leaves food logs and
recipes unchanged. -/
theorem C10_mutations_touch_only_own_collection (s : AppState) (item : FoodItem)
    (r : JuiceRecipe) (rid : String) (v : VitalLog) :
    ((addFoodLog item s).recipes = s.recipes ∧ (addFoodLog item s).vitals = s.vitals) ∧
    ((addRecipe r s).foodLogs = s.foodLogs ∧ (addRecipe r s).vitals = s.vitals) ∧
    ((removeRecipe rid s).foodLogs = s.foodLogs ∧ (removeRecipe rid s).vitals = s.vitals) ∧
    ((addVitalLog v s).foodLogs = s.foodLogs ∧ (addVitalLog v s).recipes = s.recipes) :=
  ⟨⟨rfl, rfl⟩, ⟨rfl, rfl⟩, ⟨rfl, rfl⟩, ⟨rfl, rfl⟩⟩

end VB
